import Mathlib

/-!
# smartMailbox: the letter-box alarm firmware (`src/main.cpp`)

A shallow embedding of the polling loop of the ESP8266 firmware and of its
lock routines, followed by theorems about the mail counter, the door events,
the reminder and the servo lock.

Modelling conventions

* The global variables of `main.cpp` are the fields of `State`, under their
  source names.  The global `nowTime_millis` (line 98) is shadowed by the local
  of `loop` and never used, so it has no field.
* Every value the firmware obtains from the outside during one pass of
  `loop()` is a field of `CycleInput`: each call of `digitalRead`, each call of
  `millis()`, each formatted clock string, and the Telegram updates.  The two
  reads of one reed switch inside one pass are separate inputs, as in the
  source.
* `unsigned long` is 32 bits wide on the ESP8266: readings of `millis()` are
  reduced modulo `2^32` and subtraction is `usub32`.
* `int mails` is a signed 32-bit counter.  Incrementing it at `INT_MAX` has no
  defined behaviour in C++; the model returns `none` there.
* `LockClose` busy-waits on the door sensor.  It is given the list of readings
  it will see; when the list holds no closed reading the routine has not
  returned within these readings and the model returns `none`.
* Everything the firmware does to the outside is recorded as an `Event`, in
  program order.  Serial output is recorded by the source line of the print
  statement.
-/

namespace SmartMailbox

/-! ## Constants -/

/-- Arduino level `HIGH`. -/
abbrev HIGH : Bool := true
/-- Arduino level `LOW`. -/
abbrev LOW : Bool := false

/-- Number of values of a 32-bit `unsigned long`. -/
def U32 : Nat := 4294967296

/-- Largest value of a 32-bit `int`. -/
def INT_MAX : Int := 2147483647

/-- Line 83: mean time between scans of the Telegram inbox. -/
def BOT_MTBS : Nat := 1000
/-- Line 102: on time of the alarm LED. -/
def onInterval : Nat := 200
/-- Line 103: off time of the alarm LED. -/
def offInterval : Nat := 3000
/-- Line 104: pause after a buzzer melody. -/
def buzzerDelay : Nat := 2000
/-- Line 105: the 30 s after which the lock is closed for safety. -/
def sendCounter : Nat := 30000
/-- Line 108: servo position written in `setup`. -/
def start : Nat := 0
/-- Line 109: servo position of the locked lock. -/
def closed : Nat := 0
/-- Line 110: servo position of the unlocked lock (`open` in the source). -/
def open_pos : Nat := 180

/-- A reading of `millis()`, as the 32-bit value the firmware sees. -/
def millis (reading : Nat) : Nat := reading % U32

/-- Subtraction of two `unsigned long` values. -/
def usub32 (a b : Nat) : Nat := (a % U32 + U32 - b % U32) % U32

/-! ## Data model -/

/-- The output pins written with `digitalWrite`. -/
inductive Pin where
  | LED_BUILTIN
  | Alarm_LED
  deriving DecidableEq, Repr

/-- The text built in `handleNewMessages` and sent back to the chat. -/
inductive Answer where
  /-- The empty `String answer` before any command set it. -/
  | blank
  /-- Line 247. -/
  | help
  /-- Lines 251-254, with `msg.from_name`. -/
  | welcome (from_name : String)
  /-- Line 260: no letters. -/
  | statusNone
  /-- Lines 264-266: count, postman time, last insertion. -/
  | status (mails : Int) (firstMailTime_string lastMailTime_string : String)
  /-- Lines 276-277: not a valid command. -/
  | invalid
  deriving DecidableEq, Repr

/-- The calls of `bot.sendMessage`, one constructor per call site. -/
inductive Msg where
  /-- Line 204: "wird entsperrt ...". -/
  | unlocking
  /-- Line 211: asks to close the door so that it locks. -/
  | closeDoorToLock
  /-- Line 279: the reply to a command. -/
  | reply (chat_id : String) (answer : Answer)
  /-- Line 407: "Bot ist online!". -/
  | online
  /-- Line 452: the box is pretty full. -/
  | boxFull
  /-- Line 453: the count sent with the full warning. -/
  | fullCount (mails : Int)
  /-- Line 454: send someone to empty the box. -/
  | fullSendSomeone
  /-- Line 473: the new mail count. -/
  | newMails (mails : Int)
  /-- Line 481: the postman time. -/
  | postmanTime (firstMailTime_string : String)
  /-- Line 485: the time of the last insertion. -/
  | lastInsert (lastMailTime_string : String)
  /-- Line 516: the box was opened. -/
  | boxOpened
  /-- Line 556: the box was closed again. -/
  | boxClosed
  /-- Line 571: the box was emptied, with the remaining count. -/
  | emptied (mails : Int)
  /-- Line 591: do not forget to empty the box. -/
  | reminder
  /-- Line 592: count and days waiting. -/
  | reminderCount (mails : Int) (days : Nat)
  deriving DecidableEq, Repr

/-- What the firmware does to the outside world. -/
inductive Event where
  | serial (line : Nat)
  | send (m : Msg)
  | servoWrite (angle : Nat)
  | tone (hz : Nat)
  | noTone
  | delay (ms : Nat)
  | digitalWrite (pin : Pin) (level : Bool)
  deriving DecidableEq, Repr

/-- The global variables of `main.cpp` (lines 83-149) and the static local
`mails_alt` of `loop`. -/
structure State where
  bot_lasttime : Nat
  savedTime : Nat
  days_to_reminderMessage : Nat
  days_since_firstMailTime : Nat
  mails : Int
  firstMailTime_millis : Nat
  lastMailTime_millis : Nat
  emptyBoxTime_millis : Nat
  firstMailTime_string : String
  lastMailTime_string : String
  emptyBoxTime_string : String
  newMail_State : Bool
  fullMail_State : Bool
  empty_State : Bool
  led_State : Bool
  reed1_wasOpen : Bool
  reed1_wasClosed : Bool
  reed2_wasOpen : Bool
  servo_isOpen : Bool
  servo_isOpen_millis : Nat
  mailMessage_Sent : Bool
  mailMessage_Sent_millis : Nat
  emptyMessage_Sent : Bool
  openMessage_Sent : Bool
  reminderMessage_Sent : Bool
  debug_State : Bool
  startup : Int
  StartupTime_millis : Nat
  startupTime_string : String
  mails_alt : Int
  deriving DecidableEq, Repr

/-- The globals as initialised at lines 83-149, after `setup()` has set
`startup = 1` (line 369); `mails_alt` is initialised from `mails` on the first
pass of `loop`. -/
def initial : State where
  bot_lasttime := 0
  savedTime := 0
  days_to_reminderMessage := 4
  days_since_firstMailTime := 0
  mails := 0
  firstMailTime_millis := 0
  lastMailTime_millis := 0
  emptyBoxTime_millis := 0
  firstMailTime_string := ""
  lastMailTime_string := ""
  emptyBoxTime_string := ""
  newMail_State := false
  fullMail_State := false
  empty_State := true
  led_State := false
  reed1_wasOpen := false
  reed1_wasClosed := true
  reed2_wasOpen := false
  servo_isOpen := false
  servo_isOpen_millis := 0
  mailMessage_Sent := false
  mailMessage_Sent_millis := 0
  emptyMessage_Sent := false
  openMessage_Sent := false
  reminderMessage_Sent := false
  debug_State := true
  startup := 1
  StartupTime_millis := 0
  startupTime_string := ""
  mails_alt := 0

/-- One entry of `bot.messages`, together with the value `millis()` returns at
line 214 should the message run `LockOpen`. -/
structure Incoming where
  text : String
  from_name : String
  chat_id : String
  millis_lock : Nat
  deriving DecidableEq, Repr

/-- Everything one pass of `loop()` reads from the outside. -/
structure CycleInput where
  /-- Line 379: `millis()` stored in the local `nowTime_millis`. -/
  now : Nat
  /-- Line 380: formatted time stored in `nowTime_string`. -/
  clock_now : String
  /-- Line 384: `millis()` compared with `bot_lasttime`. -/
  t_poll : Nat
  /-- Lines 386, 391: the batches `getUpdates` returns, in order; after the
  last one (or at an empty one) it returns 0. -/
  updates : List (List Incoming)
  /-- Line 393: `millis()` stored in `bot_lasttime`. -/
  t_polled : Nat
  /-- Line 400. -/
  t_startup : Nat
  /-- Line 401. -/
  clock_startup : String
  /-- Line 414: first read of reed switch 1. -/
  reed1_a : Bool
  /-- Line 425: second read of reed switch 1. -/
  reed1_b : Bool
  /-- Line 434 or 461: `millis()` at the insertion. -/
  t_mail : Nat
  /-- Line 435 or 462: formatted time at the insertion. -/
  clock_mail : String
  /-- Line 477. -/
  t_mailCheck : Nat
  /-- Line 489. -/
  t_mailSent : Nat
  /-- Line 505: first read of reed switch 2 (the door). -/
  reed2_a : Bool
  /-- Line 532: second read of reed switch 2. -/
  reed2_b : Bool
  /-- Line 545. -/
  t_empty : Nat
  /-- Line 220, for the `LockClose` called at line 549: the door readings
  the wait loop sees. -/
  door_emptyClose : List Bool
  /-- Line 621. -/
  t_safety : Nat
  /-- Line 220, for the `LockClose` called at line 624. -/
  door_safetyClose : List Bool
  deriving Repr

/-! ## Buzzer and lock routines -/

/-- Lines 170-180. -/
def ConfirmTone : List Event :=
  [.tone 100, .delay 150, .noTone, .delay 50, .tone 200, .delay 1000, .noTone,
   .delay buzzerDelay]

/-- Lines 182-188. -/
def NoticeTone_short : List Event :=
  [.tone 100, .delay 150, .noTone]

/-- Lines 200-215.  `t` is the reading of `millis()` at line 214. -/
def LockOpen (t : Nat) (s : State) : State × List Event :=
  ({ s with servo_isOpen := true, servo_isOpen_millis := millis t },
   [.serial 203, .send .unlocking, .delay 2000, .servoWrite open_pos,
    .serial 209, .serial 210, .send .closeDoorToLock])

/-- Lines 217-230.  The argument lists the readings of reed switch 2 seen by
the wait loop of line 220, one per iteration. -/
def LockClose : List Bool → State → Option (State × List Event)
  | [], _ => none
  | r :: rs, s =>
    if r != LOW then
      (LockClose rs s).map (fun p => (p.1, Event.delay 3000 :: p.2))
    else
      some ({ s with servo_isOpen := false },
            [.servoWrite closed, .serial 225] ++ ConfirmTone)

/-! ## Telegram commands -/

/-- The body of the `for` loop of `handleNewMessages` (lines 242-279) for one
message; `answer` is declared outside the loop and carried along. -/
def handleMessage (msg : Incoming) (s : State) (answer : Answer) :
    State × Answer × List Event :=
  if msg.text = "/help" then
    (s, .help, [.serial 243, .send (.reply msg.chat_id .help)])
  else if msg.text = "/start" then
    (s, .welcome msg.from_name,
     [.serial 243, .send (.reply msg.chat_id (.welcome msg.from_name))])
  else if msg.text = "/status" then
    let a : Answer :=
      if s.mails = 0 then .statusNone
      else .status s.mails s.firstMailTime_string s.lastMailTime_string
    (s, a, [.serial 243, .send (.reply msg.chat_id a)])
  else if msg.text = "/open" then
    let r := LockOpen msg.millis_lock s
    (r.1, answer, [.serial 243] ++ r.2 ++ [.send (.reply msg.chat_id answer)])
  else
    (s, .invalid, [.serial 243, .send (.reply msg.chat_id .invalid)])

/-- The `for` loop of lines 240-280. -/
def handleLoop : List Incoming → State → Answer → State × List Event
  | [], s, _ => (s, [])
  | msg :: rest, s, answer =>
    let r := handleMessage msg s answer
    let q := handleLoop rest r.1 r.2.1
    (q.1, r.2.2 ++ q.2)

/-- Lines 234-281. -/
def handleNewMessages (batch : List Incoming) (s : State) : State × List Event :=
  let q := handleLoop batch s .blank
  (q.1, [.serial 236, .serial 237] ++ q.2)

/-- The `while (numNewMessages)` loop of lines 386-392. -/
def updatesLoop : List (List Incoming) → State → State × List Event
  | [], s => (s, [])
  | batch :: rest, s =>
    if batch.length = 0 then (s, [])
    else
      let r := handleNewMessages batch s
      let q := updatesLoop rest r.1
      (q.1, [.serial 389] ++ r.2 ++ q.2)

/-! ## The phases of `loop()` -/

/-- Lines 383-394: the Telegram inbox, polled at most once per `BOT_MTBS`. -/
def pollTelegram (i : CycleInput) (s : State) : State × List Event :=
  if usub32 (millis i.t_poll) s.bot_lasttime > BOT_MTBS then
    let r := updatesLoop i.updates s
    ({ r.1 with bot_lasttime := millis i.t_polled }, r.2)
  else
    (s, [])

/-- Lines 396-411: runs once, on the first pass. -/
def startupOnce (i : CycleInput) (s : State) : State × List Event :=
  if s.startup = 1 then
    ({ s with
        StartupTime_millis := millis i.t_startup
        startupTime_string := i.clock_startup
        startup := s.startup + 1 },
     [.serial 402, .serial 403, .serial 404, .send .online] ++ NoticeTone_short)
  else
    (s, [])

/-- Lines 413-422: reed switch 1 reads open, the slot is armed. -/
def mailArm (i : CycleInput) (s : State) : State × List Event :=
  if i.reed1_a = HIGH then
    ({ s with reed1_wasOpen := true, reed1_wasClosed := false, newMail_State := true },
     [.serial 421])
  else
    (s, [])

/-- Lines 431-469: the three branches on the new count. -/
def mailStamp (i : CycleInput) (s : State) : State × List Event :=
  if s.mails = 1 then
    ({ s with
        firstMailTime_millis := millis i.t_mail
        firstMailTime_string := i.clock_mail },
     [.serial 437, .serial 438, .serial 439])
  else if s.mails = 5 then
    ({ s with fullMail_State := true },
     [.serial 444, .serial 445, .serial 446, .serial 447, .serial 450,
      .send .boxFull, .send (.fullCount s.mails), .send .fullSendSomeone])
  else
    ({ s with
        lastMailTime_millis := millis i.t_mail
        lastMailTime_string := i.clock_mail },
     [.serial 464, .serial 465, .serial 466, .serial 467, .serial 468])

/-- Lines 477-487: the times are sent when the last insertion is more than
30 s ago. -/
def mailTimes (i : CycleInput) (s : State) : List Event :=
  if usub32 (millis i.t_mailCheck) s.lastMailTime_millis > 30000 then
    (if s.firstMailTime_millis ≠ 0 then [.send (.postmanTime s.firstMailTime_string)] else [])
      ++ (if s.lastMailTime_millis ≠ 0 then [.send (.lastInsert s.lastMailTime_string)] else [])
  else
    []

/-- Lines 424-493: the slot snapped back while armed, one insertion. -/
def mailInsert (i : CycleInput) (s : State) : Option (State × List Event) :=
  if i.reed1_b = LOW ∧ s.reed1_wasOpen = true then
    if s.mails = INT_MAX then none
    else
      let s1 := { s with mails := s.mails + 1, reed1_wasOpen := false }
      let r := mailStamp i s1
      let s2 := r.1
      some ({ s2 with
                mailMessage_Sent_millis := millis i.t_mailSent
                mailMessage_Sent := true
                mails_alt := s2.mails },
            r.2 ++ [.serial 471, .serial 472, .send (.newMails s2.mails)] ++ mailTimes i s2)
  else
    some (s, [])

/-- Lines 504-529: the door reads open. -/
def doorOpen (i : CycleInput) (s : State) : State × List Event :=
  if i.reed2_a = HIGH then
    let r : State × List Event :=
      if s.openMessage_Sent = false then
        ({ s with openMessage_Sent := true },
         [.serial 513, .serial 514, .serial 515, .send .boxOpened])
      else (s, [])
    ({ r.1 with reed2_wasOpen := true, emptyMessage_Sent := false, fullMail_State := false },
     [.digitalWrite .LED_BUILTIN LOW] ++ r.2 ++ [.delay 2000])
  else
    (s, [.digitalWrite .LED_BUILTIN HIGH])

/-- Lines 558-577: the message that the box was emptied, behind its guard. -/
def emptyMessage (s : State) : State × List Event :=
  if s.emptyMessage_Sent = false then
    ({ s with
        emptyMessage_Sent := true
        openMessage_Sent := false
        reminderMessage_Sent := false
        days_since_firstMailTime := 0 },
     [.serial 562, .serial 563, .serial 564, .serial 565, .serial 566,
      .delay 1000, .send (.emptied s.mails)])
  else
    (s, [])

/-- Lines 537-545: the counter and the arrival times are cleared. -/
def emptyReset (i : CycleInput) (s : State) : State :=
  { s with
      mails := 0
      reed2_wasOpen := false
      newMail_State := false
      firstMailTime_millis := 0
      lastMailTime_millis := 0
      emptyBoxTime_string := i.clock_now
      emptyBoxTime_millis := millis i.t_empty }

/-- Lines 531-578: the door reads closed after it was open; the box counts as
emptied. -/
def doorClose (i : CycleInput) (s : State) : Option (State × List Event) :=
  if i.reed2_b = LOW ∧ s.reed2_wasOpen = true then
    let s1 := emptyReset i s
    let locked : Option (State × List Event) :=
      if s1.servo_isOpen = true then LockClose i.door_emptyClose s1 else some (s1, [])
    locked.map (fun p =>
      let r := emptyMessage p.1
      (r.1,
       [.digitalWrite .LED_BUILTIN HIGH] ++ p.2
         ++ [.serial 552, .serial 553, .serial 554, .send .boxClosed] ++ r.2))
  else
    some (s, [])

/-- The condition of line 585,
`(days_since_firstMailTime >= days_to_reminderMessage) && (reminderMessage_Sent = false)`.
The right operand is an assignment: when the left operand holds it stores
`false` in `reminderMessage_Sent` and its value is `false`. -/
def reminderCondition (s : State) : State × Bool :=
  if s.days_since_firstMailTime ≥ s.days_to_reminderMessage then
    ({ s with reminderMessage_Sent := false }, false)
  else
    (s, false)

/-- Lines 580-595. -/
def reminderCheck (i : CycleInput) (s : State) : State × List Event :=
  let s1 := { s with
                days_since_firstMailTime :=
                  usub32 (millis i.now) s.firstMailTime_millis / 86400000 }
  let c := reminderCondition s1
  if c.2 = true then
    ({ c.1 with reminderMessage_Sent := true },
     [.serial 588, .serial 589, .send .reminder,
      .send (.reminderCount c.1.mails c.1.days_since_firstMailTime)])
  else
    (c.1, [])

/-- Lines 597-618: the blinking alarm LED. -/
def ledAlarm (i : CycleInput) (s : State) : State × List Event :=
  if s.newMail_State = true then
    if s.led_State = true then
      if usub32 (millis i.now) s.savedTime ≥ onInterval then
        ({ s with savedTime := millis i.now, led_State := false },
         [.digitalWrite .Alarm_LED LOW])
      else (s, [])
    else
      if usub32 (millis i.now) s.savedTime ≥ offInterval then
        ({ s with savedTime := millis i.now, led_State := true },
         [.digitalWrite .Alarm_LED HIGH])
      else (s, [])
  else
    (s, [])

/-- Lines 620-625: the lock is closed when it has been open for 30 s. -/
def safetyClose (i : CycleInput) (s : State) : Option (State × List Event) :=
  if s.servo_isOpen = true ∧ usub32 (millis i.t_safety) s.servo_isOpen_millis ≥ sendCounter then
    (LockClose i.door_safetyClose s).map (fun p => (p.1, Event.serial 623 :: p.2))
  else
    some (s, [])

/-- Lines 372-618: one pass of `loop()` up to the safety check of the lock. -/
def loopBody (i : CycleInput) (s : State) : Option (State × List Event) :=
  let p1 := pollTelegram i s
  let p2 := startupOnce i p1.1
  let p3 := mailArm i p2.1
  (mailInsert i p3.1).bind fun p4 =>
  let p5 := doorOpen i p4.1
  (doorClose i p5.1).bind fun p6 =>
  let p7 := reminderCheck i p6.1
  let p8 := ledAlarm i p7.1
  some (p8.1, [.delay 100] ++ p1.2 ++ p2.2 ++ p3.2 ++ p4.2 ++ p5.2 ++ p6.2 ++ p7.2 ++ p8.2)

/-- Lines 372-626: one pass of `loop()`. -/
def loop (i : CycleInput) (s : State) : Option (State × List Event) :=
  (loopBody i s).bind fun p =>
  (safetyClose i p.1).map fun q => (q.1, p.2 ++ q.2)

/-- A sequence of passes of `loop()`; the result holds the final state and the
events of each pass. -/
def runCycles : State → List CycleInput → Option (State × List (List Event))
  | s, [] => some (s, [])
  | s, i :: rest =>
    (loop i s).bind fun p =>
    (runCycles p.1 rest).map fun q => (q.1, p.2 :: q.2)

/-! ## Concrete inputs -/

/-- A pass at time `t` in which both reed switches read `LOW` at every read,
every `millis()` returns `t`, and no Telegram update arrives. -/
def idle (t : Nat) : CycleInput where
  now := t
  clock_now := ""
  t_poll := t
  updates := []
  t_polled := t
  t_startup := t
  clock_startup := ""
  reed1_a := LOW
  reed1_b := LOW
  t_mail := t
  clock_mail := ""
  t_mailCheck := t
  t_mailSent := t
  reed2_a := LOW
  reed2_b := LOW
  t_empty := t
  door_emptyClose := [LOW]
  t_safety := t
  door_safetyClose := [LOW]

/-- A pass at time `t` in which reed switch 1 (the slot) reads `r` at both
reads and the door reads closed. -/
def slot (t : Nat) (r : Bool) : CycleInput :=
  { idle t with reed1_a := r, reed1_b := r }

/-- A pass at time `t` in which reed switch 2 (the door) reads `r` at both
reads and the slot reads closed. -/
def door (t : Nat) (r : Bool) : CycleInput :=
  { idle t with reed2_a := r, reed2_b := r }

/-- The states the firmware can be in between two passes of `loop()`. -/
inductive Reachable : State → Prop where
  | setup : Reachable initial
  | cycle {s s' : State} {evs : List Event} (i : CycleInput) :
      Reachable s → loop i s = some (s', evs) → Reachable s'


/-! ## Vocabulary of the properties -/

/-- The condition of line 425 at the moment it is evaluated in pass `i` from
state `s`: reed switch 1 reads `LOW` while `reed1_wasOpen` is set (it may
have been set at line 417 of the same pass). -/
def insertEdge (i : CycleInput) (s : State) : Bool :=
  !i.reed1_b && (s.reed1_wasOpen || i.reed1_a)

/-- The condition of line 532 at the moment it is evaluated in pass `i` from
state `s`: the door reads `LOW` while `reed2_wasOpen` is set (it may have
been set at line 521 of the same pass). -/
def emptyEdge (i : CycleInput) (s : State) : Bool :=
  !i.reed2_b && (s.reed2_wasOpen || i.reed2_a)

/-- Number of passes of a run in which the insertion branch is taken. -/
def insertEdges : State → List CycleInput → Nat
  | _, [] => 0
  | s, i :: rest =>
    (if insertEdge i s then 1 else 0) +
      (match loop i s with
       | some p => insertEdges p.1 rest
       | none => 0)

/-- Number of passes of a run in which the door-closed branch is taken. -/
def emptyEdges : State → List CycleInput → Nat
  | _, [] => 0
  | s, i :: rest =>
    (if emptyEdge i s then 1 else 0) +
      (match loop i s with
       | some p => emptyEdges p.1 rest
       | none => 0)

/-- The reports of `loop()` that the properties below count. -/
inductive Topic where
  /-- Line 473: the new mail count. -/
  | mail
  /-- Line 452: the box is full. -/
  | full
  /-- Line 516: the box was opened. -/
  | opened
  /-- Line 556: the box was closed again. -/
  | closedAgain
  /-- Line 571: the box was emptied. -/
  | emptied
  /-- Lines 591-592: the reminder. -/
  | reminder
  /-- Line 623: the serial line printed when the lock is closed after the
  timeout of 30 s. -/
  | forcedClose
  /-- Every other event. -/
  | other
  deriving DecidableEq, Repr

/-- The topic of an event. -/
def Event.topic : Event → Topic
  | .send (.newMails _) => .mail
  | .send .boxFull => .full
  | .send .boxOpened => .opened
  | .send .boxClosed => .closedAgain
  | .send (.emptied _) => .emptied
  | .send .reminder => .reminder
  | .send (.reminderCount _ _) => .reminder
  | .serial line => if line = 623 then .forcedClose else .other
  | _ => .other

/-- Number of events of topic `t` in a trace. -/
def occurrences (t : Topic) (evs : List Event) : Nat :=
  evs.countP (fun e => e.topic = t)

/-- A trace without any of the counted reports. -/
def quiet (evs : List Event) : Prop :=
  ∀ e ∈ evs, e.topic = .other

/-- The part of the state that the mail and door logic reads and writes. -/
structure Core where
  mails : Int
  first : Nat
  last : Nat
  armed : Bool
  wasOpen : Bool
  emptySent : Bool
  openSent : Bool
  reminderSent : Bool
  threshold : Nat
  deriving DecidableEq, Repr

/-- Projection of the state on `Core`. -/
def State.core (s : State) : Core where
  mails := s.mails
  first := s.firstMailTime_millis
  last := s.lastMailTime_millis
  armed := s.reed1_wasOpen
  wasOpen := s.reed2_wasOpen
  emptySent := s.emptyMessage_Sent
  openSent := s.openMessage_Sent
  reminderSent := s.reminderMessage_Sent
  threshold := s.days_to_reminderMessage

/-- Effect of `mailArm` on `Core`. -/
def coreArm (i : CycleInput) (c : Core) : Core :=
  { c with armed := c.armed || i.reed1_a }

/-- Effect of `mailInsert` on `Core`. -/
def coreInsert (i : CycleInput) (c : Core) : Core :=
  if i.reed1_b = LOW ∧ c.armed = true then
    { c with
        mails := c.mails + 1
        armed := false
        first := if c.mails + 1 = 1 then millis i.t_mail else c.first
        last := if c.mails + 1 = 1 ∨ c.mails + 1 = 5 then c.last else millis i.t_mail }
  else c

/-- Effect of `doorOpen` on `Core`. -/
def coreOpen (i : CycleInput) (c : Core) : Core :=
  if i.reed2_a = HIGH then { c with openSent := true, wasOpen := true, emptySent := false }
  else c

/-- Effect of `doorClose` on `Core`. -/
def coreClose (i : CycleInput) (c : Core) : Core :=
  if i.reed2_b = LOW ∧ c.wasOpen = true then
    if c.emptySent = false then
      { c with mails := 0, wasOpen := false, first := 0, last := 0,
               emptySent := true, openSent := false, reminderSent := false }
    else
      { c with mails := 0, wasOpen := false, first := 0, last := 0 }
  else c

/-- Effect of `reminderCheck` on `Core`: the assignment inside the condition of
line 585 is the only write that takes place. -/
def coreReminder (i : CycleInput) (c : Core) : Core :=
  if usub32 (millis i.now) c.first / 86400000 ≥ c.threshold then
    { c with reminderSent := false }
  else c

/-- Effect of one pass of `loop()` on `Core`. -/
def coreStep (i : CycleInput) (c : Core) : Core :=
  coreReminder i (coreClose i (coreOpen i (coreInsert i (coreArm i c))))

/-- Number of reports of topic `t` sent by `mailInsert`, from `Core`. -/
def countInsert (t : Topic) (i : CycleInput) (c : Core) : Nat :=
  if i.reed1_b = LOW ∧ c.armed = true then
    (if t = .mail then 1 else 0) + (if t = .full ∧ c.mails + 1 = 5 then 1 else 0)
  else 0

/-- Number of reports of topic `t` sent by `doorOpen`, from `Core`. -/
def countOpen (t : Topic) (i : CycleInput) (c : Core) : Nat :=
  if t = .opened ∧ i.reed2_a = HIGH ∧ c.openSent = false then 1 else 0

/-- Number of reports of topic `t` sent by `doorClose`, from `Core`. -/
def countClose (t : Topic) (i : CycleInput) (c : Core) : Nat :=
  if i.reed2_b = LOW ∧ c.wasOpen = true then
    (if t = .closedAgain then 1 else 0) + (if t = .emptied ∧ c.emptySent = false then 1 else 0)
  else 0

/-- The condition of line 621 in state `s`, with `t` the reading of `millis()`. -/
def safetyDue (t : Nat) (s : State) : Prop :=
  s.servo_isOpen = true ∧ usub32 (millis t) s.servo_isOpen_millis ≥ sendCounter

instance (t : Nat) (s : State) : Decidable (safetyDue t s) := by
  unfold safetyDue
  exact inferInstance

/-- Number of reports of topic `t` sent by one pass of `loop()`, from `Core`. -/
def countStep (t : Topic) (i : CycleInput) (c : Core) : Nat :=
  countInsert t i (coreArm i c)
    + countOpen t i (coreInsert i (coreArm i c))
    + countClose t i (coreOpen i (coreInsert i (coreArm i c)))

/-- What holds of the flags and the counter between two passes, in every
reachable state (see `reachable_sound`). -/
def Core.sound (c : Core) : Prop :=
  (c.wasOpen = true → c.emptySent = false) ∧
  (c.openSent = true → c.wasOpen = true) ∧
  c.reminderSent = false ∧
  0 ≤ c.mails ∧
  (c.mails = 0 → c.first = 0)

/-- The state after the given passes from the initial state (the initial
state itself when the run does not complete). -/
def afterRun (is : List CycleInput) : State :=
  match runCycles initial is with
  | some r => r.1
  | none => initial

/-- Three letters are inserted one after the other, then the door is read
open. -/
def threeLettersDoorOpen : List CycleInput :=
  [slot 10 HIGH, slot 20 LOW, slot 30 HIGH, slot 40 LOW, slot 50 HIGH, slot 60 LOW,
   door 70 HIGH]

/-- The counter is not negative, and when it is 0 no first arrival is
recorded. -/
def mailsConsistent (s : State) : Prop :=
  0 ≤ s.mails ∧ (s.mails = 0 → s.firstMailTime_millis = 0)

/-- Three letters are inserted, the door is opened and closed again. -/
def threeLettersEmptied : List CycleInput :=
  threeLettersDoorOpen ++ [door 80 LOW]

/-- The command `/open` arrives and is handled at `millis() = 5000`. -/
def lockOpened : List CycleInput :=
  [{ idle 5000 with updates := [[{ text := "/open", from_name := "", chat_id := "", millis_lock := 5000 }]] }]

/-- A pass at time `t` in which the door reads `a` at line 505 and `b` at line
532, and the slot reads closed. -/
def doorReads (t : Nat) (a b : Bool) : CycleInput :=
  { idle t with reed2_a := a, reed2_b := b }

/-- The value of `openMessage_Sent` after the given passes, computed from its
value `o` before them and the door reads alone: a pass that reads the door
closed at line 532 leaves it false, any other pass leaves it set if it was set
or if the pass read the door open at line 505. -/
def openedFlag : Bool → List CycleInput → Bool
  | o, [] => o
  | o, i :: rest => openedFlag (i.reed2_b && (o || i.reed2_a)) rest

/-- A pass at time `t` in which the door reads open at both reads of `loop()`
and `LockClose`, if called at line 624, reads it open twice and then closed. -/
def doorStaysOpen (t : Nat) : CycleInput :=
  { idle t with reed2_a := HIGH, reed2_b := HIGH, door_safetyClose := [HIGH, HIGH, LOW] }

/-- Reed switch 1 reads inactive at `millis() = 0` and active at 10. -/
def slotOpened : List CycleInput :=
  [slot 0 LOW, slot 10 HIGH]

/-- One letter is inserted: `firstMailTime_millis` becomes 20. -/
def oneLetter : List CycleInput :=
  [slot 10 HIGH, slot 20 LOW]

/-- The readings of the door sensor that `LockClose` sees when the sensor
follows `door` and the wait loop has run `n` times. -/
def doorReadings (door : Nat → Bool) (n : Nat) : List Bool :=
  (List.range n).map door

/-- Five letters are inserted one after the other into the empty box. -/
def fiveLetters : List CycleInput :=
  [slot 10 HIGH, slot 20 LOW, slot 30 HIGH, slot 40 LOW, slot 50 HIGH, slot 60 LOW,
   slot 70 HIGH, slot 80 LOW, slot 90 HIGH, slot 100 LOW]

/-! ## Lemmas on the phases -/

theorem occurrences_nil (t : Topic) : occurrences t [] = 0 := rfl

theorem occurrences_append (t : Topic) (l₁ l₂ : List Event) :
    occurrences t (l₁ ++ l₂) = occurrences t l₁ + occurrences t l₂ := by
  simp [occurrences, List.countP_append]

theorem occurrences_cons (t : Topic) (e : Event) (l : List Event) :
    occurrences t (e :: l) = occurrences t l + (if e.topic = t then 1 else 0) := by
  simp [occurrences, List.countP_cons]

theorem quiet_nil : quiet [] := by
  intro e he
  simp at he

theorem quiet_append {l₁ l₂ : List Event} (h₁ : quiet l₁) (h₂ : quiet l₂) : quiet (l₁ ++ l₂) := by
  intro e he
  rcases List.mem_append.1 he with h | h
  · exact h₁ e h
  · exact h₂ e h

theorem quiet_cons {e : Event} {l : List Event} (h : e.topic = .other) (hl : quiet l) :
    quiet (e :: l) := by
  intro x hx
  rcases List.mem_cons.1 hx with rfl | hx
  · exact h
  · exact hl x hx

theorem occurrences_quiet {t : Topic} {l : List Event} (h : quiet l) (ht : t ≠ .other) :
    occurrences t l = 0 := by
  unfold occurrences
  rw [List.countP_eq_zero]
  intro e he
  have := h e he
  simp [this, ht.symm]

theorem LockOpen_core (t : Nat) (s : State) : (LockOpen t s).1.core = s.core := rfl

theorem LockClose_frame (rs : List Bool) (s : State) (p : State × List Event)
    (h : LockClose rs s = some p) : p.1 = { s with servo_isOpen := false } := by
  induction rs generalizing p with
  | nil => simp [LockClose] at h
  | cons r rs ih =>
    unfold LockClose at h
    split at h
    · simp only [Option.map_eq_some'] at h
      obtain ⟨q, hq, rfl⟩ := h
      exact ih q hq
    · simp only [Option.some.injEq] at h
      subst h
      rfl

theorem LockClose_core (rs : List Bool) (s : State) (p : State × List Event)
    (h : LockClose rs s = some p) : p.1.core = s.core := by
  rw [LockClose_frame rs s p h]
  rfl

theorem handleMessage_core (msg : Incoming) (s : State) (a : Answer) :
    (handleMessage msg s a).1.core = s.core := by
  unfold handleMessage
  split_ifs <;> rfl

theorem handleLoop_core (msgs : List Incoming) (s : State) (a : Answer) :
    (handleLoop msgs s a).1.core = s.core := by
  induction msgs generalizing s a with
  | nil => rfl
  | cons m rest ih =>
    simp only [handleLoop]
    rw [ih, handleMessage_core]

theorem updatesLoop_core (bs : List (List Incoming)) (s : State) :
    (updatesLoop bs s).1.core = s.core := by
  induction bs generalizing s with
  | nil => rfl
  | cons b rest ih =>
    simp only [updatesLoop]
    split
    · rfl
    · simp only [ih, handleNewMessages, handleLoop_core]

theorem pollTelegram_core (i : CycleInput) (s : State) :
    (pollTelegram i s).1.core = s.core := by
  unfold pollTelegram
  split
  · exact updatesLoop_core i.updates s
  · rfl

theorem startupOnce_core (i : CycleInput) (s : State) :
    (startupOnce i s).1.core = s.core := by
  unfold startupOnce
  split <;> rfl

theorem mailArm_core (i : CycleInput) (s : State) :
    (mailArm i s).1.core = coreArm i s.core := by
  unfold mailArm coreArm
  split
  · rename_i h
    simp [State.core, h]
  · rename_i h
    simp [State.core, h]

theorem mailStamp_core (i : CycleInput) (s : State) :
    (mailStamp i s).1.core =
      { s.core with
          first := if s.mails = 1 then millis i.t_mail else s.core.first
          last := if s.mails = 1 ∨ s.mails = 5 then s.core.last else millis i.t_mail } := by
  unfold mailStamp
  split
  · rename_i h
    simp [State.core, h]
  · rename_i h
    split
    · rename_i h5
      simp [State.core, h, h5]
    · rename_i h5
      simp [State.core, h, h5]

theorem mailInsert_cases (i : CycleInput) (s : State) (p : State × List Event)
    (h : mailInsert i s = some p) :
    (i.reed1_b = LOW ∧ s.reed1_wasOpen = true ∧ s.mails ≠ INT_MAX ∧
      p.1.core = (mailStamp i { s with mails := s.mails + 1, reed1_wasOpen := false }).1.core ∧
      p.2 = (mailStamp i { s with mails := s.mails + 1, reed1_wasOpen := false }).2
        ++ [.serial 471, .serial 472,
            .send (.newMails (mailStamp i { s with mails := s.mails + 1, reed1_wasOpen := false }).1.mails)]
        ++ mailTimes i (mailStamp i { s with mails := s.mails + 1, reed1_wasOpen := false }).1)
    ∨ (¬ (i.reed1_b = LOW ∧ s.reed1_wasOpen = true) ∧ p = (s, [])) := by
  unfold mailInsert at h
  split at h
  · rename_i hc
    split at h
    · exact absurd h (by simp)
    · rename_i hm
      left
      simp only [Option.some.injEq] at h
      subst h
      exact ⟨hc.1, hc.2, hm, rfl, rfl⟩
  · rename_i hc
    right
    simp only [Option.some.injEq] at h
    exact ⟨hc, h.symm⟩

theorem mailInsert_core (i : CycleInput) (s : State) (p : State × List Event)
    (h : mailInsert i s = some p) : p.1.core = coreInsert i s.core := by
  rcases mailInsert_cases i s p h with ⟨hb, ha, _, hc, _⟩ | ⟨hn, rfl⟩
  · rw [hc, mailStamp_core]
    have : i.reed1_b = LOW ∧ s.core.armed = true := ⟨hb, ha⟩
    simp only [coreInsert, this, and_self, if_true]
    rfl
  · have : ¬ (i.reed1_b = LOW ∧ s.core.armed = true) := hn
    simp only [coreInsert, this, if_false]

theorem doorOpen_core (i : CycleInput) (s : State) :
    (doorOpen i s).1.core = coreOpen i s.core := by
  unfold doorOpen coreOpen
  split
  · split
    · rfl
    · rename_i h
      have h2 : s.openMessage_Sent = true := by simpa using h
      simp [State.core, h2]
  · rfl

theorem emptyMessage_core (s : State) :
    (emptyMessage s).1.core =
      if s.core.emptySent = false then
        { s.core with emptySent := true, openSent := false, reminderSent := false }
      else s.core := by
  unfold emptyMessage
  split
  · rename_i h
    have : s.core.emptySent = false := h
    rw [if_pos this]
    rfl
  · rename_i h
    have : ¬ s.core.emptySent = false := h
    rw [if_neg this]

theorem emptyReset_core (i : CycleInput) (s : State) :
    (emptyReset i s).core = { s.core with mails := 0, wasOpen := false, first := 0, last := 0 } :=
  rfl

theorem LockClose_quiet (rs : List Bool) (s : State) (p : State × List Event)
    (h : LockClose rs s = some p) : quiet p.2 := by
  induction rs generalizing p with
  | nil => simp [LockClose] at h
  | cons r rs ih =>
    unfold LockClose at h
    split at h
    · simp only [Option.map_eq_some'] at h
      obtain ⟨q, hq, rfl⟩ := h
      exact quiet_cons rfl (ih q hq)
    · simp only [Option.some.injEq] at h
      subst h
      simp [quiet, Event.topic, ConfirmTone]

theorem doorClose_cases (i : CycleInput) (s : State) (p : State × List Event)
    (h : doorClose i s = some p) :
    (i.reed2_b = LOW ∧ s.reed2_wasOpen = true ∧
      ∃ q : State × List Event,
        q.1 = { emptyReset i s with servo_isOpen := false } ∧
        quiet q.2 ∧
        p = ((emptyMessage q.1).1,
             [.digitalWrite .LED_BUILTIN HIGH] ++ q.2
               ++ [.serial 552, .serial 553, .serial 554, .send .boxClosed]
               ++ (emptyMessage q.1).2))
    ∨ (¬ (i.reed2_b = LOW ∧ s.reed2_wasOpen = true) ∧ p = (s, [])) := by
  unfold doorClose at h
  split at h
  · rename_i hc
    left
    simp only [Option.map_eq_some'] at h
    obtain ⟨q, hq, rfl⟩ := h
    refine ⟨hc.1, hc.2, q, ?_, ?_, rfl⟩
    · split at hq
      · exact LockClose_frame _ _ _ hq
      · rename_i hs
        simp only [Option.some.injEq] at hq
        subst hq
        have hs2 : (emptyReset i s).servo_isOpen = false := by simpa using hs
        show emptyReset i s = _
        cases hh : emptyReset i s
        rw [hh] at hs2
        simp only at hs2
        subst hs2
        rfl
    · split at hq
      · exact LockClose_quiet _ _ _ hq
      · simp only [Option.some.injEq] at hq
        subst hq
        exact quiet_nil
  · rename_i hc
    right
    simp only [Option.some.injEq] at h
    exact ⟨hc, h.symm⟩

theorem doorClose_core (i : CycleInput) (s : State) (p : State × List Event)
    (h : doorClose i s = some p) : p.1.core = coreClose i s.core := by
  unfold coreClose
  rcases doorClose_cases i s p h with ⟨hb, hw, q, hq, _, rfl⟩ | ⟨hn, rfl⟩
  · have hc : i.reed2_b = LOW ∧ s.core.wasOpen = true := ⟨hb, hw⟩
    have hqc : q.1.core =
        { s.core with mails := 0, wasOpen := false, first := 0, last := 0 } := by
      rw [hq]
      rfl
    rw [if_pos hc, emptyMessage_core, hqc]
  · have hc : ¬ (i.reed2_b = LOW ∧ s.core.wasOpen = true) := hn
    rw [if_neg hc]

theorem reminderCondition_snd (s : State) : (reminderCondition s).2 = false := by
  unfold reminderCondition
  split <;> rfl

theorem reminderCondition_core (s : State) :
    (reminderCondition s).1.core =
      if s.days_since_firstMailTime ≥ s.core.threshold then
        { s.core with reminderSent := false }
      else s.core := by
  unfold reminderCondition
  split
  · rename_i h
    have : s.days_since_firstMailTime ≥ s.core.threshold := h
    rw [if_pos this]
    rfl
  · rename_i h
    have : ¬ s.days_since_firstMailTime ≥ s.core.threshold := h
    rw [if_neg this]

/-- The branch of lines 586-595 is never entered. -/
theorem reminderCheck_eq (i : CycleInput) (s : State) :
    reminderCheck i s =
      ((reminderCondition { s with
          days_since_firstMailTime :=
            usub32 (millis i.now) s.firstMailTime_millis / 86400000 }).1, []) := by
  unfold reminderCheck
  simp only [reminderCondition_snd, Bool.false_eq_true, if_false]

theorem reminderCheck_core (i : CycleInput) (s : State) :
    (reminderCheck i s).1.core = coreReminder i s.core := by
  rw [reminderCheck_eq, reminderCondition_core]
  rfl

theorem ledAlarm_core (i : CycleInput) (s : State) :
    (ledAlarm i s).1.core = s.core := by
  unfold ledAlarm
  split_ifs <;> rfl

theorem safetyClose_core (i : CycleInput) (s : State) (p : State × List Event)
    (h : safetyClose i s = some p) : p.1.core = s.core := by
  unfold safetyClose at h
  split at h
  · simp only [Option.map_eq_some'] at h
    obtain ⟨q, hq, rfl⟩ := h
    exact LockClose_core _ _ q hq
  · simp only [Option.some.injEq] at h
    subst h
    rfl

/-- The decomposition of the body of a pass into its phases. -/
theorem loopBody_phases (i : CycleInput) (s : State) (p : State × List Event)
    (h : loopBody i s = some p) :
    ∃ p4 p6,
      mailInsert i (mailArm i (startupOnce i (pollTelegram i s).1).1).1 = some p4 ∧
      doorClose i (doorOpen i p4.1).1 = some p6 ∧
      p.1 = (ledAlarm i (reminderCheck i p6.1).1).1 ∧
      p.2 = [.delay 100] ++ (pollTelegram i s).2 ++ (startupOnce i (pollTelegram i s).1).2
        ++ (mailArm i (startupOnce i (pollTelegram i s).1).1).2 ++ p4.2
        ++ (doorOpen i p4.1).2 ++ p6.2 ++ (reminderCheck i p6.1).2
        ++ (ledAlarm i (reminderCheck i p6.1).1).2 := by
  unfold loopBody at h
  simp only [Option.bind_eq_some] at h
  obtain ⟨p4, h4, p6, h6, hp⟩ := h
  simp only [Option.some.injEq] at hp
  subst hp
  exact ⟨p4, p6, h4, h6, rfl, rfl⟩

theorem loop_of_body (i : CycleInput) (s : State) (p : State × List Event)
    (h : loopBody i s = some p) :
    loop i s = (safetyClose i p.1).map (fun q => (q.1, p.2 ++ q.2)) := by
  unfold loop
  rw [h]
  rfl

/-- The decomposition of a completed pass into its phases. -/
theorem loop_phases (i : CycleInput) (s s' : State) (evs : List Event)
    (h : loop i s = some (s', evs)) :
    ∃ p4 p6 p9,
      mailInsert i (mailArm i (startupOnce i (pollTelegram i s).1).1).1 = some p4 ∧
      doorClose i (doorOpen i p4.1).1 = some p6 ∧
      safetyClose i (ledAlarm i (reminderCheck i p6.1).1).1 = some p9 ∧
      s' = p9.1 ∧
      evs = [.delay 100] ++ (pollTelegram i s).2 ++ (startupOnce i (pollTelegram i s).1).2
        ++ (mailArm i (startupOnce i (pollTelegram i s).1).1).2 ++ p4.2
        ++ (doorOpen i p4.1).2 ++ p6.2 ++ (reminderCheck i p6.1).2
        ++ (ledAlarm i (reminderCheck i p6.1).1).2 ++ p9.2 := by
  cases hb : loopBody i s with
  | none =>
    unfold loop at h
    rw [hb] at h
    exact absurd h (by simp)
  | some p =>
    rw [loop_of_body i s p hb] at h
    simp only [Option.map_eq_some'] at h
    obtain ⟨p9, h9, h⟩ := h
    simp only [Prod.mk.injEq] at h
    obtain ⟨p4, p6, h4, h6, h1, h2⟩ := loopBody_phases i s p hb
    rw [h1] at h9
    rw [h2] at h
    exact ⟨p4, p6, p9, h4, h6, h9, h.1.symm, h.2.symm⟩

theorem LockOpen_quiet (t : Nat) (s : State) : quiet (LockOpen t s).2 := by
  simp [quiet, LockOpen, Event.topic]

theorem handleMessage_quiet (msg : Incoming) (s : State) (a : Answer) :
    quiet (handleMessage msg s a).2.2 := by
  unfold handleMessage
  split
  · simp [quiet, Event.topic]
  · split
    · simp [quiet, Event.topic]
    · split
      · simp [quiet, Event.topic]
      · split
        · exact quiet_append (quiet_append (by simp [quiet, Event.topic]) (LockOpen_quiet _ _))
            (by simp [quiet, Event.topic])
        · simp [quiet, Event.topic]

theorem handleLoop_quiet (msgs : List Incoming) (s : State) (a : Answer) :
    quiet (handleLoop msgs s a).2 := by
  induction msgs generalizing s a with
  | nil => exact quiet_nil
  | cons m rest ih => exact quiet_append (handleMessage_quiet m s a) (ih _ _)

theorem updatesLoop_quiet (bs : List (List Incoming)) (s : State) :
    quiet (updatesLoop bs s).2 := by
  induction bs generalizing s with
  | nil => exact quiet_nil
  | cons b rest ih =>
    simp only [updatesLoop]
    split
    · exact quiet_nil
    · refine quiet_append (quiet_append (by simp [quiet, Event.topic]) ?_) (ih _)
      exact quiet_append (by simp [quiet, Event.topic]) (handleLoop_quiet _ _ _)

theorem pollTelegram_quiet (i : CycleInput) (s : State) : quiet (pollTelegram i s).2 := by
  unfold pollTelegram
  split
  · exact updatesLoop_quiet _ _
  · exact quiet_nil

theorem startupOnce_quiet (i : CycleInput) (s : State) : quiet (startupOnce i s).2 := by
  unfold startupOnce
  split
  · simp [quiet, Event.topic, NoticeTone_short]
  · exact quiet_nil

theorem mailArm_quiet (i : CycleInput) (s : State) : quiet (mailArm i s).2 := by
  unfold mailArm
  split
  · simp [quiet, Event.topic]
  · exact quiet_nil

theorem reminderCheck_quiet (i : CycleInput) (s : State) : quiet (reminderCheck i s).2 := by
  rw [reminderCheck_eq]
  exact quiet_nil

theorem ledAlarm_quiet (i : CycleInput) (s : State) : quiet (ledAlarm i s).2 := by
  unfold ledAlarm
  split_ifs <;> simp [quiet, Event.topic]

theorem safetyClose_occurrences (t : Topic) (ht : t ≠ .other) (i : CycleInput) (s : State)
    (p : State × List Event) (h : safetyClose i s = some p) :
    occurrences t p.2 = if t = .forcedClose ∧ safetyDue i.t_safety s then 1 else 0 := by
  unfold safetyClose at h
  split at h
  · rename_i hd
    have hd2 : safetyDue i.t_safety s := hd
    simp only [Option.map_eq_some'] at h
    obtain ⟨q, hq, rfl⟩ := h
    rw [occurrences_cons, occurrences_quiet (LockClose_quiet _ _ q hq) ht]
    cases t <;> first | exact absurd rfl ht | simp [Event.topic, hd2]
  · rename_i hd
    have hd2 : ¬ safetyDue i.t_safety s := hd
    simp only [Option.some.injEq] at h
    subst h
    simp [occurrences, hd2]

theorem mailTimes_quiet (i : CycleInput) (s : State) : quiet (mailTimes i s) := by
  unfold mailTimes
  split_ifs <;> simp [quiet, Event.topic]

theorem mailStamp_occurrences (t : Topic) (ht : t ≠ .other) (i : CycleInput) (s : State) :
    occurrences t (mailStamp i s).2 = if t = .full ∧ s.mails = 5 then 1 else 0 := by
  unfold mailStamp
  split
  · rename_i h
    have : ¬ s.mails = 5 := by omega
    cases t <;> first | exact absurd rfl ht | simp [occurrences, Event.topic, this]
  · split
    · rename_i h5
      cases t <;> first | exact absurd rfl ht | simp [occurrences, Event.topic, h5]
    · rename_i h5
      cases t <;> first | exact absurd rfl ht | simp [occurrences, Event.topic, h5]

theorem mailInsert_occurrences (t : Topic) (ht : t ≠ .other) (i : CycleInput) (s : State)
    (p : State × List Event) (h : mailInsert i s = some p) :
    occurrences t p.2 = countInsert t i s.core := by
  unfold countInsert
  rcases mailInsert_cases i s p h with ⟨hb, ha, _, _, he⟩ | ⟨hn, rfl⟩
  · have hc : i.reed1_b = LOW ∧ s.core.armed = true := ⟨hb, ha⟩
    rw [if_pos hc, he, occurrences_append, occurrences_append,
      mailStamp_occurrences t ht, occurrences_quiet (mailTimes_quiet _ _) ht]
    have hs : s.core.mails = s.mails := rfl
    rw [hs]
    cases t <;> first | exact absurd rfl ht | simp [occurrences, Event.topic]
  · have hc : ¬ (i.reed1_b = LOW ∧ s.core.armed = true) := hn
    rw [if_neg hc]
    rfl

theorem doorOpen_occurrences (t : Topic) (ht : t ≠ .other) (i : CycleInput) (s : State) :
    occurrences t (doorOpen i s).2 = countOpen t i s.core := by
  unfold doorOpen countOpen
  have hs : s.core.openSent = s.openMessage_Sent := rfl
  split
  · rename_i ha
    split
    · rename_i ho
      cases t <;> first | exact absurd rfl ht | simp [occurrences, Event.topic, hs, ho, ha]
    · rename_i ho
      cases t <;> first | exact absurd rfl ht | simp [occurrences, Event.topic, hs, ho, ha]
  · rename_i ha
    cases t <;> first | exact absurd rfl ht | simp [occurrences, Event.topic, ha]

theorem emptyMessage_occurrences (t : Topic) (ht : t ≠ .other) (s : State) :
    occurrences t (emptyMessage s).2 = if t = .emptied ∧ s.core.emptySent = false then 1 else 0 := by
  unfold emptyMessage
  have hs : s.core.emptySent = s.emptyMessage_Sent := rfl
  split
  · rename_i h
    cases t <;> first | exact absurd rfl ht | simp [occurrences, Event.topic, hs, h]
  · rename_i h
    cases t <;> first | exact absurd rfl ht | simp [occurrences, Event.topic, hs, h]

theorem doorClose_occurrences (t : Topic) (ht : t ≠ .other) (i : CycleInput) (s : State)
    (p : State × List Event) (h : doorClose i s = some p) :
    occurrences t p.2 = countClose t i s.core := by
  unfold countClose
  rcases doorClose_cases i s p h with ⟨hb, hw, q, hq, hqq, rfl⟩ | ⟨hn, rfl⟩
  · have hc : i.reed2_b = LOW ∧ s.core.wasOpen = true := ⟨hb, hw⟩
    have hqe : q.1.core.emptySent = s.core.emptySent := by
      rw [hq]
      rfl
    rw [if_pos hc]
    simp only [occurrences_append, emptyMessage_occurrences t ht, occurrences_quiet hqq ht, hqe]
    cases t <;> first | exact absurd rfl ht | simp [occurrences, Event.topic]
  · have hc : ¬ (i.reed2_b = LOW ∧ s.core.wasOpen = true) := hn
    rw [if_neg hc]
    rfl

theorem loop_occurrences (t : Topic) (ht : t ≠ .other) (ht2 : t ≠ .forcedClose)
    (i : CycleInput) (s s' : State)
    (evs : List Event) (h : loop i s = some (s', evs)) :
    occurrences t evs = countStep t i s.core := by
  obtain ⟨p4, p6, p9, h4, h6, h9, rfl, rfl⟩ := loop_phases i s s' evs h
  have c4 := mailInsert_core _ _ _ h4
  rw [mailArm_core, startupOnce_core, pollTelegram_core] at c4
  have o4 := mailInsert_occurrences t ht _ _ _ h4
  rw [mailArm_core, startupOnce_core, pollTelegram_core] at o4
  have o5 := doorOpen_occurrences t ht i p4.1
  rw [c4] at o5
  have o6 := doorClose_occurrences t ht _ _ _ h6
  rw [doorOpen_core, c4] at o6
  simp only [occurrences_append, o4, o5, o6,
    occurrences_quiet (pollTelegram_quiet _ _) ht,
    occurrences_quiet (startupOnce_quiet _ _) ht,
    occurrences_quiet (mailArm_quiet _ _) ht,
    occurrences_quiet (reminderCheck_quiet _ _) ht,
    occurrences_quiet (ledAlarm_quiet _ _) ht,
    safetyClose_occurrences t ht _ _ _ h9]
  have hd : occurrences t [Event.delay 100] = 0 :=
    occurrences_quiet (quiet_cons rfl quiet_nil) ht
  rw [hd]
  simp [countStep, ht2]

theorem loopBody_forcedClose (i : CycleInput) (s : State) (p : State × List Event)
    (h : loopBody i s = some p) : occurrences .forcedClose p.2 = 0 := by
  obtain ⟨p4, p6, h4, h6, -, h2⟩ := loopBody_phases i s p h
  have ht : Topic.forcedClose ≠ Topic.other := by decide
  rw [h2]
  simp only [occurrences_append,
    mailInsert_occurrences .forcedClose ht _ _ _ h4,
    doorOpen_occurrences .forcedClose ht,
    doorClose_occurrences .forcedClose ht _ _ _ h6,
    occurrences_quiet (pollTelegram_quiet _ _) ht,
    occurrences_quiet (startupOnce_quiet _ _) ht,
    occurrences_quiet (mailArm_quiet _ _) ht,
    occurrences_quiet (reminderCheck_quiet _ _) ht,
    occurrences_quiet (ledAlarm_quiet _ _) ht]
  have hd : occurrences .forcedClose [Event.delay 100] = 0 :=
    occurrences_quiet (quiet_cons rfl quiet_nil) ht
  rw [hd]
  simp [countInsert, countOpen, countClose]

theorem loop_core (i : CycleInput) (s s' : State) (evs : List Event)
    (h : loop i s = some (s', evs)) : s'.core = coreStep i s.core := by
  obtain ⟨p4, p6, p9, h4, h6, h9, rfl, _⟩ := loop_phases i s s' evs h
  rw [safetyClose_core _ _ _ h9, ledAlarm_core, reminderCheck_core,
    doorClose_core _ _ _ h6, doorOpen_core, mailInsert_core _ _ _ h4, mailArm_core,
    startupOnce_core, pollTelegram_core]
  rfl


theorem LockClose_open_readings (pre : List Bool) (hpre : ∀ r ∈ pre, r = HIGH)
    (rest : List Bool) (s : State) :
    LockClose (pre ++ rest) s =
      (LockClose rest s).map
        (fun p => (p.1, List.replicate pre.length (Event.delay 3000) ++ p.2)) := by
  induction pre with
  | nil =>
    simp only [List.nil_append, List.length_nil, List.replicate_zero]
    cases LockClose rest s <;> rfl
  | cons r pre ih =>
    have hr : r = HIGH := hpre r (List.mem_cons_self _ _)
    subst hr
    have ih2 := ih (fun x hx => hpre x (List.mem_cons_of_mem _ hx))
    have e : LockClose (HIGH :: (pre ++ rest)) s =
        (LockClose (pre ++ rest) s).map (fun p => (p.1, Event.delay 3000 :: p.2)) := rfl
    rw [List.cons_append, e, ih2, Option.map_map]
    rfl

theorem LockClose_at_closed (post : List Bool) (s : State) :
    LockClose (LOW :: post) s =
      some ({ s with servo_isOpen := false },
            [.servoWrite closed, .serial 225] ++ ConfirmTone) := by
  simp [LockClose]

theorem LockClose_all_open (rs : List Bool) (h : ∀ r ∈ rs, r = HIGH) (s : State) :
    LockClose rs s = none := by
  have := LockClose_open_readings rs h [] s
  rw [List.append_nil] at this
  rw [this]
  rfl

/-- The readings up to the first closed one. -/
theorem split_at_first_closed (rs : List Bool) (h : LOW ∈ rs) :
    ∃ pre post, rs = pre ++ LOW :: post ∧ ∀ r ∈ pre, r = HIGH := by
  induction rs with
  | nil => simp at h
  | cons r rs ih =>
    cases r with
    | false => exact ⟨[], rs, rfl, by simp⟩
    | true =>
      have h2 : LOW ∈ rs := by
        rcases List.mem_cons.1 h with h | h
        · exact absurd h (by decide)
        · exact h
      obtain ⟨pre, post, rfl, hpre⟩ := ih h2
      refine ⟨HIGH :: pre, post, rfl, ?_⟩
      intro x hx
      rcases List.mem_cons.1 hx with rfl | hx
      · rfl
      · exact hpre x hx

theorem LockClose_isSome_iff (rs : List Bool) (s : State) :
    (LockClose rs s).isSome = true ↔ LOW ∈ rs := by
  constructor
  · intro h
    by_contra hn
    have : ∀ r ∈ rs, r = HIGH := by
      intro r hr
      cases r with
      | false => exact absurd hr hn
      | true => rfl
    rw [LockClose_all_open rs this s] at h
    exact absurd h (by decide)
  · intro h
    obtain ⟨pre, post, rfl, hpre⟩ := split_at_first_closed rs h
    rw [LockClose_open_readings pre hpre, LockClose_at_closed]
    rfl

/-- A pass completes when the counter is below `INT_MAX` and both calls of
`LockClose` would see a closed door. -/
theorem loop_completes (i : CycleInput) (s : State) (hm : s.mails ≠ INT_MAX)
    (h1 : LOW ∈ i.door_emptyClose) (h2 : LOW ∈ i.door_safetyClose) :
    ∃ p, loop i s = some p := by
  have hA : ∃ p4, mailInsert i (mailArm i (startupOnce i (pollTelegram i s).1).1).1 = some p4 := by
    have hmm : (mailArm i (startupOnce i (pollTelegram i s).1).1).1.mails = s.mails := by
      have := congrArg Core.mails (mailArm_core i (startupOnce i (pollTelegram i s).1).1)
      rw [startupOnce_core, pollTelegram_core] at this
      exact this
    unfold mailInsert
    split
    · rw [hmm, if_neg hm]
      exact ⟨_, rfl⟩
    · exact ⟨_, rfl⟩
  obtain ⟨p4, h4⟩ := hA
  have hB : ∃ p6, doorClose i (doorOpen i p4.1).1 = some p6 := by
    unfold doorClose
    split
    · simp only
      split
      · obtain ⟨q, hq⟩ := Option.isSome_iff_exists.1
          ((LockClose_isSome_iff i.door_emptyClose (emptyReset i (doorOpen i p4.1).1)).2 h1)
        rw [hq]
        exact ⟨_, rfl⟩
      · exact ⟨_, rfl⟩
    · exact ⟨_, rfl⟩
  obtain ⟨p6, h6⟩ := hB
  have hC : ∃ p, loopBody i s = some p := by
    unfold loopBody
    simp only [h4, h6, Option.some_bind]
    exact ⟨_, rfl⟩
  obtain ⟨p, hp⟩ := hC
  rw [loop_of_body i s p hp]
  unfold safetyClose
  split
  · obtain ⟨q, hq⟩ := Option.isSome_iff_exists.1
      ((LockClose_isSome_iff i.door_safetyClose p.1).2 h2)
    rw [hq]
    exact ⟨_, rfl⟩
  · exact ⟨_, rfl⟩

/-! ## One pass, seen on `Core` -/

@[simp] theorem coreReminder_mails (i : CycleInput) (c : Core) :
    (coreReminder i c).mails = c.mails := by
  unfold coreReminder
  split <;> rfl

@[simp] theorem coreReminder_first (i : CycleInput) (c : Core) :
    (coreReminder i c).first = c.first := by
  unfold coreReminder
  split <;> rfl

@[simp] theorem coreReminder_last (i : CycleInput) (c : Core) :
    (coreReminder i c).last = c.last := by
  unfold coreReminder
  split <;> rfl

@[simp] theorem coreReminder_armed (i : CycleInput) (c : Core) :
    (coreReminder i c).armed = c.armed := by
  unfold coreReminder
  split <;> rfl

@[simp] theorem coreReminder_wasOpen (i : CycleInput) (c : Core) :
    (coreReminder i c).wasOpen = c.wasOpen := by
  unfold coreReminder
  split <;> rfl

@[simp] theorem coreReminder_emptySent (i : CycleInput) (c : Core) :
    (coreReminder i c).emptySent = c.emptySent := by
  unfold coreReminder
  split <;> rfl

@[simp] theorem coreReminder_openSent (i : CycleInput) (c : Core) :
    (coreReminder i c).openSent = c.openSent := by
  unfold coreReminder
  split <;> rfl

@[simp] theorem coreReminder_threshold (i : CycleInput) (c : Core) :
    (coreReminder i c).threshold = c.threshold := by
  unfold coreReminder
  split <;> rfl

theorem coreReminder_reminderSent (i : CycleInput) (c : Core) (h : c.reminderSent = false) :
    (coreReminder i c).reminderSent = false := by
  unfold coreReminder
  split
  · rfl
  · exact h

theorem coreStep_mails (i : CycleInput) (c : Core) :
    (coreStep i c).mails =
      if (!i.reed2_b && (c.wasOpen || i.reed2_a)) = true then 0
      else c.mails + (if (!i.reed1_b && (c.armed || i.reed1_a)) = true then 1 else 0) := by
  obtain ⟨m, f, l, ar, wo, es, os, rs, th⟩ := c
  cases h1 : i.reed1_a <;> cases h2 : i.reed1_b <;> cases h3 : i.reed2_a <;>
    cases h4 : i.reed2_b <;> cases ar <;> cases wo <;> cases es <;>
    simp [coreStep, coreClose, coreOpen, coreInsert, coreArm, h1, h2, h3, h4]

theorem coreStep_armed (i : CycleInput) (c : Core) :
    (coreStep i c).armed = ((c.armed || i.reed1_a) && i.reed1_b) := by
  obtain ⟨m, f, l, ar, wo, es, os, rs, th⟩ := c
  cases h1 : i.reed1_a <;> cases h2 : i.reed1_b <;> cases h3 : i.reed2_a <;>
    cases h4 : i.reed2_b <;> cases ar <;> cases wo <;> cases es <;>
    simp [coreStep, coreClose, coreOpen, coreInsert, coreArm, h1, h2, h3, h4]

theorem coreStep_wasOpen (i : CycleInput) (c : Core) :
    (coreStep i c).wasOpen = ((c.wasOpen || i.reed2_a) && i.reed2_b) := by
  obtain ⟨m, f, l, ar, wo, es, os, rs, th⟩ := c
  cases h1 : i.reed1_a <;> cases h2 : i.reed1_b <;> cases h3 : i.reed2_a <;>
    cases h4 : i.reed2_b <;> cases ar <;> cases wo <;> cases es <;>
    simp [coreStep, coreClose, coreOpen, coreInsert, coreArm, h1, h2, h3, h4]


/-! ## One pass, seen on the state -/

theorem loop_mails (i : CycleInput) (s s' : State) (evs : List Event)
    (h : loop i s = some (s', evs)) :
    s'.mails =
      if emptyEdge i s = true then 0
      else s.mails + (if insertEdge i s = true then 1 else 0) := by
  have hc := congrArg Core.mails (loop_core i s s' evs h)
  rw [coreStep_mails] at hc
  exact hc

theorem loop_reed1_wasOpen (i : CycleInput) (s s' : State) (evs : List Event)
    (h : loop i s = some (s', evs)) :
    s'.reed1_wasOpen = ((s.reed1_wasOpen || i.reed1_a) && i.reed1_b) := by
  have hc := congrArg Core.armed (loop_core i s s' evs h)
  rw [coreStep_armed] at hc
  exact hc

theorem loop_reed2_wasOpen (i : CycleInput) (s s' : State) (evs : List Event)
    (h : loop i s = some (s', evs)) :
    s'.reed2_wasOpen = ((s.reed2_wasOpen || i.reed2_a) && i.reed2_b) := by
  have hc := congrArg Core.wasOpen (loop_core i s s' evs h)
  rw [coreStep_wasOpen] at hc
  exact hc

/-- A completed run splits into its first pass and the rest. -/
theorem runCycles_cons (s : State) (i : CycleInput) (rest : List CycleInput)
    (r : State × List (List Event)) (h : runCycles s (i :: rest) = some r) :
    ∃ (p : State × List Event) (q : State × List (List Event)),
      loop i s = some p ∧ runCycles p.1 rest = some q ∧ r = (q.1, p.2 :: q.2) := by
  simp only [runCycles, Option.bind_eq_some, Option.map_eq_some'] at h
  obtain ⟨p, hp, q, hq, rfl⟩ := h
  exact ⟨p, q, hp, hq, rfl⟩

theorem runCycles_mails (is : List CycleInput) :
    ∀ (s : State) (r : State × List (List Event)),
      runCycles s is = some r → emptyEdges s is = 0 →
      r.1.mails = s.mails + insertEdges s is := by
  induction is with
  | nil =>
    intro s r h _
    simp only [runCycles, Option.some.injEq] at h
    subst h
    simp [insertEdges]
  | cons i rest ih =>
    intro s r h hne
    obtain ⟨p, q, hp, hq, rfl⟩ := runCycles_cons s i rest r h
    simp only [emptyEdges, hp] at hne
    have he : emptyEdge i s = false := by
      cases hE : emptyEdge i s
      · rfl
      · rw [hE] at hne
        simp at hne
    have hrest : emptyEdges p.1 rest = 0 := by omega
    have hm := loop_mails i s p.1 p.2 hp
    rw [he] at hm
    simp only [Bool.false_eq_true, if_false] at hm
    have := ih p.1 q hq hrest
    simp only [insertEdges, hp]
    rw [this, hm]
    push_cast
    split <;> omega

/-! ## Mail counter -/

/-- C1.  In every completed run of passes that starts with `mails = 0` and in
which the door-closed branch (the empty event) is never taken, the mail counter
at the end equals the number of passes in which reed switch 1 read `LOW` while
`reed1_wasOpen` was set.  A pass in which reed switch 1 reads `HIGH`, and
which is not an empty event, leaves the counter as it is and leaves
`reed1_wasOpen` set. -/
theorem mails_eq_insert_edges :
    (∀ (s : State) (is : List CycleInput) (r : State × List (List Event)),
      s.mails = 0 → runCycles s is = some r → emptyEdges s is = 0 →
      r.1.mails = insertEdges s is) ∧
    (∀ (i : CycleInput) (s s' : State) (evs : List Event),
      loop i s = some (s', evs) → i.reed1_a = HIGH → i.reed1_b = HIGH →
      emptyEdge i s = false →
      s'.mails = s.mails ∧ s'.reed1_wasOpen = true) := by
  constructor
  · intro s is r h0 hrun hne
    rw [runCycles_mails is s r hrun hne, h0, zero_add]
  · intro i s s' evs h ha hb he
    have hm := loop_mails i s s' evs h
    have hw := loop_reed1_wasOpen i s s' evs h
    have hi : insertEdge i s = false := by simp [insertEdge, hb]
    rw [he, hi] at hm
    rw [ha, hb] at hw
    constructor
    · simpa using hm
    · simpa using hw

/-- C1 at the readings [inactive, active, inactive] of reed switch 1 from the
initial state: the run completes and the counter is 1. -/
theorem mails_eq_insert_edges_witness :
    ∃ r, runCycles initial [slot 0 LOW, slot 10 HIGH, slot 20 LOW] = some r ∧
      r.1.mails = 1 ∧ insertEdges initial [slot 0 LOW, slot 10 HIGH, slot 20 LOW] = 1 :=
  ⟨_, rfl,
    (mails_eq_insert_edges.1 initial [slot 0 LOW, slot 10 HIGH, slot 20 LOW] _ rfl rfl rfl).trans
      (by decide),
    by decide⟩

/-! ## Reachable states -/

theorem coreStep_emptySent (i : CycleInput) (c : Core) :
    (coreStep i c).emptySent =
      if (!i.reed2_b && (c.wasOpen || i.reed2_a)) = true then true
      else (c.emptySent && !i.reed2_a) := by
  obtain ⟨m, f, l, ar, wo, es, os, rs, th⟩ := c
  cases h1 : i.reed1_a <;> cases h2 : i.reed1_b <;> cases h3 : i.reed2_a <;>
    cases h4 : i.reed2_b <;> cases ar <;> cases wo <;> cases es <;>
    simp [coreStep, coreClose, coreOpen, coreInsert, coreArm, h1, h2, h3, h4]

theorem coreStep_openSent (i : CycleInput) (c : Core) :
    (coreStep i c).openSent =
      if (!i.reed2_b && (c.wasOpen || i.reed2_a) && !(c.emptySent && !i.reed2_a)) = true then false
      else (c.openSent || i.reed2_a) := by
  obtain ⟨m, f, l, ar, wo, es, os, rs, th⟩ := c
  cases h1 : i.reed1_a <;> cases h2 : i.reed1_b <;> cases h3 : i.reed2_a <;>
    cases h4 : i.reed2_b <;> cases ar <;> cases wo <;> cases es <;>
    simp [coreStep, coreClose, coreOpen, coreInsert, coreArm, h1, h2, h3, h4]

theorem coreStep_first (i : CycleInput) (c : Core) :
    (coreStep i c).first =
      if (!i.reed2_b && (c.wasOpen || i.reed2_a)) = true then 0
      else if (!i.reed1_b && (c.armed || i.reed1_a)) = true then
        (if c.mails + 1 = 1 then millis i.t_mail else c.first)
      else c.first := by
  obtain ⟨m, f, l, ar, wo, es, os, rs, th⟩ := c
  cases h1 : i.reed1_a <;> cases h2 : i.reed1_b <;> cases h3 : i.reed2_a <;>
    cases h4 : i.reed2_b <;> cases ar <;> cases wo <;> cases es <;>
    simp [coreStep, coreClose, coreOpen, coreInsert, coreArm, h1, h2, h3, h4]

theorem coreStep_last (i : CycleInput) (c : Core) :
    (coreStep i c).last =
      if (!i.reed2_b && (c.wasOpen || i.reed2_a)) = true then 0
      else if (!i.reed1_b && (c.armed || i.reed1_a)) = true then
        (if c.mails + 1 = 1 ∨ c.mails + 1 = 5 then c.last else millis i.t_mail)
      else c.last := by
  obtain ⟨m, f, l, ar, wo, es, os, rs, th⟩ := c
  cases h1 : i.reed1_a <;> cases h2 : i.reed1_b <;> cases h3 : i.reed2_a <;>
    cases h4 : i.reed2_b <;> cases ar <;> cases wo <;> cases es <;>
    simp [coreStep, coreClose, coreOpen, coreInsert, coreArm, h1, h2, h3, h4]

theorem coreStep_reminderSent (i : CycleInput) (c : Core) (h : c.reminderSent = false) :
    (coreStep i c).reminderSent = false := by
  apply coreReminder_reminderSent
  obtain ⟨m, f, l, ar, wo, es, os, rs, th⟩ := c
  simp only at h
  subst h
  cases h1 : i.reed1_a <;> cases h2 : i.reed1_b <;> cases h3 : i.reed2_a <;>
    cases h4 : i.reed2_b <;> cases ar <;> cases wo <;> cases es <;>
    simp [coreClose, coreOpen, coreInsert, coreArm, h1, h2, h3, h4]

theorem coreStep_sound (i : CycleInput) (c : Core) (h : c.sound) : (coreStep i c).sound := by
  obtain ⟨h1, h2, h3, h4, h5⟩ := h
  refine ⟨?_, ?_, coreStep_reminderSent i c h3, ?_, ?_⟩
  · rw [coreStep_wasOpen, coreStep_emptySent]
    revert h1
    cases i.reed2_a <;> cases i.reed2_b <;> cases c.wasOpen <;> cases c.emptySent <;> simp
  · rw [coreStep_wasOpen, coreStep_openSent]
    revert h1 h2
    cases i.reed2_a <;> cases i.reed2_b <;> cases c.wasOpen <;> cases c.emptySent <;>
      cases c.openSent <;> simp
  · rw [coreStep_mails]
    split
    · exact le_refl 0
    · split <;> omega
  · rw [coreStep_mails, coreStep_first]
    split
    · intro _
      rfl
    · split
      · intro hz
        omega
      · intro hz
        exact h5 (by omega)

theorem initial_sound : initial.core.sound := by
  refine ⟨?_, ?_, rfl, le_refl 0, fun _ => rfl⟩
  · intro h
    exact absurd h (by decide)
  · intro h
    exact absurd h (by decide)

theorem reachable_sound (s : State) (h : Reachable s) : s.core.sound := by
  induction h with
  | setup => exact initial_sound
  | cycle i _ hl ih =>
    rw [loop_core i _ _ _ hl]
    exact coreStep_sound i _ ih

theorem reachable_run (is : List CycleInput) :
    ∀ (s : State) (r : State × List (List Event)),
      Reachable s → runCycles s is = some r → Reachable r.1 := by
  induction is with
  | nil =>
    intro s r hs h
    simp only [runCycles, Option.some.injEq] at h
    subst h
    exact hs
  | cons i rest ih =>
    intro s r hs h
    obtain ⟨p, q, hp, hq, rfl⟩ := runCycles_cons s i rest r h
    exact ih p.1 q (Reachable.cycle i hs hp) hq

theorem reachable_afterRun (is : List CycleInput) : Reachable (afterRun is) := by
  unfold afterRun
  split
  · rename_i r hr
    exact reachable_run is initial r Reachable.setup hr
  · exact Reachable.setup

/-! ## Door events -/

theorem countStep_emptied (i : CycleInput) (c : Core) (h : c.sound) :
    countStep .emptied i c =
      if (!i.reed2_b && (c.wasOpen || i.reed2_a)) = true then 1 else 0 := by
  obtain ⟨h1, -, -, -, -⟩ := h
  obtain ⟨m, f, l, ar, wo, es, os, rs, th⟩ := c
  simp only at h1
  revert h1
  cases ha : i.reed1_a <;> cases hb : i.reed1_b <;> cases hc : i.reed2_a <;>
    cases hd : i.reed2_b <;> cases ar <;> cases wo <;> cases es <;>
    simp [countStep, countInsert, countOpen, countClose, coreOpen, coreInsert, coreArm,
      ha, hb, hc, hd]

theorem coreStep_emptied (i : CycleInput) (c : Core) (h : c.sound)
    (he : (!i.reed2_b && (c.wasOpen || i.reed2_a)) = true) :
    (coreStep i c).mails = 0 ∧ (coreStep i c).first = 0 ∧ (coreStep i c).last = 0 ∧
      (coreStep i c).openSent = false ∧ (coreStep i c).reminderSent = false := by
  have hr := (coreStep_sound i c h).2.2.1
  refine ⟨?_, ?_, ?_, ?_, hr⟩
  · rw [coreStep_mails, if_pos he]
  · rw [coreStep_first, if_pos he]
  · rw [coreStep_last, if_pos he]
  · rw [coreStep_openSent]
    have h1 := h.1
    revert h1 he
    cases i.reed2_a <;> cases i.reed2_b <;> cases c.wasOpen <;> cases c.emptySent <;> simp

/-- C2.  In every state reachable from the initial state, a completed pass
sends the "box emptied" message (line 571) exactly once when the door reads
`LOW` at line 532 while `reed2_wasOpen` is set, and not at all otherwise; the
guard `emptyMessage_Sent` never suppresses it.  After such a pass `mails` is 0,
both arrival times are 0, and `openMessage_Sent` and `reminderMessage_Sent` are
false, whatever the count was. -/
theorem emptied_once_per_door_close (s : State) (hs : Reachable s) (i : CycleInput)
    (s' : State) (evs : List Event) (h : loop i s = some (s', evs)) :
    occurrences .emptied evs = (if emptyEdge i s = true then 1 else 0) ∧
    (emptyEdge i s = true →
      s'.mails = 0 ∧ s'.firstMailTime_millis = 0 ∧ s'.lastMailTime_millis = 0 ∧
        s'.openMessage_Sent = false ∧ s'.reminderMessage_Sent = false) := by
  have hinv := reachable_sound s hs
  constructor
  · rw [loop_occurrences .emptied (by decide) (by decide) i s s' evs h, countStep_emptied i _ hinv]
    rfl
  · intro he
    have hc := loop_core i s s' evs h
    have := coreStep_emptied i s.core hinv he
    rw [← hc] at this
    exact this

/-- C2 at the scenario of the specification: three letters are inserted, the
door is read open, and then closed; the closing pass sends one "emptied"
message and resets the counter from 3 to 0. -/
theorem emptied_once_per_door_close_witness :
    ∃ p, loop (door 80 LOW) (afterRun threeLettersDoorOpen) = some p ∧
      (afterRun threeLettersDoorOpen).mails = 3 ∧
      occurrences .emptied p.2 = 1 ∧ p.1.mails = 0 :=
  ⟨_, rfl, by decide,
    (emptied_once_per_door_close (afterRun threeLettersDoorOpen) (reachable_afterRun _)
      (door 80 LOW) _ _ rfl).1.trans (by decide),
    ((emptied_once_per_door_close (afterRun threeLettersDoorOpen) (reachable_afterRun _)
      (door 80 LOW) _ _ rfl).2 (by decide)).1⟩

theorem countStep_opened (i : CycleInput) (c : Core) :
    countStep .opened i c = if i.reed2_a = HIGH ∧ c.openSent = false then 1 else 0 := by
  obtain ⟨m, f, l, ar, wo, es, os, rs, th⟩ := c
  cases ha : i.reed1_a <;> cases hb : i.reed1_b <;> cases hc : i.reed2_a <;>
    cases hd : i.reed2_b <;> cases ar <;> cases wo <;> cases os <;>
    simp [countStep, countInsert, countOpen, countClose, coreOpen, coreInsert, coreArm,
      ha, hb, hc, hd]

theorem coreStep_openSent_stable (i : CycleInput) (c : Core) (h : c.sound)
    (hst : i.reed2_b = i.reed2_a) : (coreStep i c).openSent = i.reed2_a := by
  rw [coreStep_openSent, hst]
  have h1 := h.1
  have h2 := h.2.1
  revert h1 h2
  cases i.reed2_a <;> cases c.wasOpen <;> cases c.emptySent <;> cases c.openSent <;> simp

theorem loop_opened (i : CycleInput) (s s' : State) (evs : List Event)
    (h : loop i s = some (s', evs)) :
    occurrences .opened evs =
      if i.reed2_a = HIGH ∧ s.openMessage_Sent = false then 1 else 0 := by
  rw [loop_occurrences .opened (by decide) (by decide) i s s' evs h, countStep_opened]
  rfl

theorem runCycles_opened (is : List CycleInput) :
    ∀ (s : State) (r : State × List (List Event)),
      s.core.sound → (∀ i ∈ is, i.reed2_b = i.reed2_a) → runCycles s is = some r →
      ∀ k, k < is.length →
        occurrences .opened (r.2.getD k []) =
          if (is.getD k (idle 0)).reed2_a = HIGH ∧
              (if k = 0 then s.openMessage_Sent else (is.getD (k - 1) (idle 0)).reed2_a) = false
          then 1 else 0 := by
  induction is with
  | nil =>
    intro s r _ _ _ k hk
    simp at hk
  | cons i rest ih =>
    intro s r hs hst h k hk
    obtain ⟨p, q, hp, hq, rfl⟩ := runCycles_cons s i rest r h
    cases k with
    | zero =>
      simp only [List.getD_cons_zero, if_true]
      exact loop_opened i s p.1 p.2 hp
    | succ k =>
      have hps : p.1.core.sound := by
        rw [loop_core i s p.1 p.2 hp]
        exact coreStep_sound i _ hs
      have hpo : p.1.openMessage_Sent = i.reed2_a := by
        have := coreStep_openSent_stable i s.core hs (hst i (List.mem_cons_self _ _))
        rw [← loop_core i s p.1 p.2 hp] at this
        exact this
      have hk2 : k < rest.length := by
        simp only [List.length_cons] at hk
        omega
      have := ih p.1 q hps (fun j hj => hst j (List.mem_cons_of_mem _ hj)) hq k hk2
      simp only [List.getD_cons_succ, Nat.add_sub_cancel, Nat.succ_ne_zero, if_false]
      rw [this, hpo]
      cases k with
      | zero => simp
      | succ k => simp

theorem coreStep_openSent_sound (i : CycleInput) (c : Core) (h : c.sound) :
    (coreStep i c).openSent = (i.reed2_b && (c.openSent || i.reed2_a)) := by
  rw [coreStep_openSent]
  have h1 := h.1
  have h2 := h.2.1
  revert h1 h2
  cases i.reed2_a <;> cases i.reed2_b <;> cases c.wasOpen <;> cases c.emptySent <;>
    cases c.openSent <;> simp

theorem runCycles_openSent (is : List CycleInput) :
    ∀ (s : State) (r : State × List (List Event)),
      s.core.sound → runCycles s is = some r →
      r.1.openMessage_Sent = openedFlag s.openMessage_Sent is := by
  induction is with
  | nil =>
    intro s r _ h
    simp only [runCycles, Option.some.injEq] at h
    subst h
    rfl
  | cons i rest ih =>
    intro s r hs h
    obtain ⟨p, q, hp, hq, rfl⟩ := runCycles_cons s i rest r h
    have hps : p.1.core.sound := by
      rw [loop_core i s p.1 p.2 hp]
      exact coreStep_sound i _ hs
    have hpo : p.1.openMessage_Sent = (i.reed2_b && (s.openMessage_Sent || i.reed2_a)) := by
      have := coreStep_openSent_sound i s.core hs
      rw [← loop_core i s p.1 p.2 hp] at this
      exact this
    have := ih p.1 q hps hq
    simp only [openedFlag]
    rw [← hpo]
    exact this

/-- A completed run splits at any point into two completed runs. -/
theorem runCycles_append (pre : List CycleInput) :
    ∀ (s : State) (rest : List CycleInput) (r : State × List (List Event)),
      runCycles s (pre ++ rest) = some r →
      ∃ (r1 r2 : State × List (List Event)),
        runCycles s pre = some r1 ∧ runCycles r1.1 rest = some r2 ∧
        r.2 = r1.2 ++ r2.2 ∧ r1.2.length = pre.length := by
  induction pre with
  | nil =>
    intro s rest r h
    exact ⟨(s, []), r, rfl, h, rfl, rfl⟩
  | cons i pre ih =>
    intro s rest r h
    obtain ⟨p, q, hp, hq, rfl⟩ := runCycles_cons s i (pre ++ rest) r h
    obtain ⟨r1, r2, h1, h2, h3, h4⟩ := ih p.1 rest q hq
    refine ⟨(r1.1, p.2 :: r1.2), r2, ?_, h2, ?_, ?_⟩
    · simp only [runCycles, hp, h1, Option.some_bind, Option.map_some']
    · simp only [h3, List.cons_append]
    · simp only [List.length_cons, h4]

/-- The flag computed by `openedFlag` is set exactly when it was set before
and no pass read the door closed at line 532, or some pass read the door open
at line 505 and neither it nor a later pass read the door closed at line 532. -/
theorem openedFlag_eq_true (l : List CycleInput) :
    ∀ o : Bool, openedFlag o l = true ↔
      (o = true ∧ ∀ m ∈ l, m.reed2_b = HIGH) ∨
      ∃ before j after, l = before ++ j :: after ∧ j.reed2_a = HIGH ∧
        ∀ m ∈ j :: after, m.reed2_b = HIGH := by
  induction l with
  | nil =>
    intro o
    simp [openedFlag]
  | cons i rest ih =>
    intro o
    simp only [openedFlag]
    rw [ih]
    constructor
    · rintro (⟨h1, h2⟩ | ⟨before, j, after, h1, h2, h3⟩)
      · simp only [Bool.and_eq_true, Bool.or_eq_true] at h1
        obtain ⟨hb, ho | ha⟩ := h1
        · left
          refine ⟨ho, ?_⟩
          intro m hm
          rcases List.mem_cons.1 hm with hmi | hmr
          · rw [hmi]
            exact hb
          · exact h2 m hmr
        · right
          refine ⟨[], i, rest, rfl, ha, ?_⟩
          intro m hm
          rcases List.mem_cons.1 hm with hmi | hmr
          · rw [hmi]
            exact hb
          · exact h2 m hmr
      · right
        exact ⟨i :: before, j, after, by rw [h1]; rfl, h2, h3⟩
    · rintro (⟨h1, h2⟩ | ⟨before, j, after, h1, h2, h3⟩)
      · left
        have hb : i.reed2_b = true := h2 i (List.mem_cons_self _ _)
        refine ⟨by simp [hb, h1], ?_⟩
        intro m hm
        exact h2 m (List.mem_cons_of_mem _ hm)
      · cases before with
        | nil =>
          simp only [List.nil_append, List.cons.injEq] at h1
          obtain ⟨hij, hra⟩ := h1
          left
          have hb : i.reed2_b = true := by
            rw [hij]
            exact h3 j (List.mem_cons_self _ _)
          have ha : i.reed2_a = true := by
            rw [hij]
            exact h2
          refine ⟨by simp [hb, ha], ?_⟩
          intro m hm
          rw [hra] at hm
          exact h3 m (List.mem_cons_of_mem _ hm)
        | cons x before =>
          simp only [List.cons_append, List.cons.injEq] at h1
          right
          exact ⟨before, j, after, h1.2, h2, h3⟩

/-- The "box opened" message in the pass that follows the passes `pre` of a
completed run from the initial state. -/
theorem runCycles_opened_at (pre : List CycleInput) (i : CycleInput)
    (post : List CycleInput) (r : State × List (List Event))
    (h : runCycles initial (pre ++ i :: post) = some r) :
    occurrences .opened (r.2.getD pre.length []) =
      if i.reed2_a = HIGH ∧ openedFlag false pre = false then 1 else 0 := by
  obtain ⟨r1, r2, h1, h2, h3, h4⟩ := runCycles_append pre initial (i :: post) r h
  obtain ⟨p, q, hp, hq, rfl⟩ := runCycles_cons r1.1 i post r2 h2
  have hs : r1.1.core.sound := reachable_sound _ (reachable_run pre initial r1 Reachable.setup h1)
  have ho : r1.1.openMessage_Sent = openedFlag false pre :=
    runCycles_openSent pre initial r1 initial_sound h1
  have hg : r.2.getD pre.length [] = p.2 := by
    rw [h3, ← h4, List.getD_append_right _ _ _ _ (le_refl _), Nat.sub_self]
    rfl
  rw [hg, loop_opened i r1.1 p.1 p.2 hp, ho]

theorem openedFlag_false_iff (pre : List CycleInput) :
    openedFlag false pre = false ↔
      ∀ before j after, pre = before ++ j :: after → j.reed2_a = HIGH →
        ∃ m ∈ j :: after, m.reed2_b = LOW := by
  constructor
  · intro hf before j after hpre hj
    by_contra hne
    have hall : ∀ m ∈ j :: after, m.reed2_b = HIGH := by
      intro m hm
      cases hb : m.reed2_b with
      | true => rfl
      | false => exact absurd ⟨m, hm, hb⟩ hne
    have ht := (openedFlag_eq_true pre false).2 (Or.inr ⟨before, j, after, hpre, hj, hall⟩)
    rw [hf] at ht
    exact absurd ht (by decide)
  · intro h
    cases hf : openedFlag false pre with
    | false => rfl
    | true =>
      rcases (openedFlag_eq_true pre false).1 hf with ⟨h1, _⟩ | ⟨before, j, after, hp, hj, hall⟩
      · exact absurd h1 (by decide)
      · obtain ⟨m, hm, hml⟩ := h before j after hp hj
        have := hall m hm
        rw [hml] at this
        exact absurd this (by decide)

/-- C3 fails as stated: the run of open readings is not what decides the
message.  On the door reads (505, 532) = [(open, open), (closed, open),
(open, open)] the third pass starts a new run of open readings at line 505
after a closed reading, yet sends nothing; on [(open, closed), (open, closed)]
the second pass continues a run of open readings at line 505, yet sends the
message again.  So the formula of the claim does not hold of every run. -/
theorem opened_not_once_per_open_run :
    (∃ r, runCycles initial
          [doorReads 10 HIGH HIGH, doorReads 20 LOW HIGH, doorReads 30 HIGH HIGH] = some r ∧
      r.2.map (occurrences .opened) = [1, 0, 0]) ∧
    (∃ r, runCycles initial [doorReads 10 HIGH LOW, doorReads 20 HIGH LOW] = some r ∧
      r.2.map (occurrences .opened) = [1, 1]) ∧
    ¬ (∀ (is : List CycleInput) (r : State × List (List Event)),
        runCycles initial is = some r →
        ∀ k : Nat, k < is.length →
          occurrences .opened (r.2.getD k []) =
            if (is.getD k (idle 0)).reed2_a = HIGH ∧
                (k = 0 ∨ (is.getD (k - 1) (idle 0)).reed2_a = LOW)
            then 1 else 0) :=
  ⟨⟨_, rfl, by decide⟩, ⟨_, rfl, by decide⟩,
    fun h => absurd
      (h [doorReads 10 HIGH LOW, doorReads 20 HIGH LOW] _ rfl 1 (by decide)) (by decide)⟩

/-- C3 as amended.  A completed pass sends the "box opened" message (line 516)
once if it reads the door open at line 505 while `openMessage_Sent` is false,
and not at all otherwise.  In every completed run of passes from the initial
state the message is sent at most once per pass, and it is sent in a pass
exactly when that pass reads the door open at line 505 and every earlier pass
that read the door open at line 505 has been followed, in the same or a later
pass, by a closed reading at line 532 (the empty event, which clears
`openMessage_Sent`).  When each pass reads the door with one level (the reads
of lines 505 and 532 agree), this is: exactly once in a pass that reads the
door open and is the first pass or follows a pass that read it closed, once at
the start of each maximal run of open readings, however long the run is. -/
theorem opened_once_per_open_run :
    (∀ (i : CycleInput) (s s' : State) (evs : List Event), loop i s = some (s', evs) →
      occurrences .opened evs =
        if i.reed2_a = HIGH ∧ s.openMessage_Sent = false then 1 else 0) ∧
    (∀ (pre : List CycleInput) (i : CycleInput) (post : List CycleInput)
      (r : State × List (List Event)),
      runCycles initial (pre ++ i :: post) = some r →
      occurrences .opened (r.2.getD pre.length []) ≤ 1 ∧
      (occurrences .opened (r.2.getD pre.length []) = 1 ↔
        i.reed2_a = HIGH ∧
        ∀ before j after, pre = before ++ j :: after → j.reed2_a = HIGH →
          ∃ m ∈ j :: after, m.reed2_b = LOW)) ∧
    (∀ (is : List CycleInput) (r : State × List (List Event)),
      (∀ i ∈ is, i.reed2_b = i.reed2_a) → runCycles initial is = some r →
      ∀ k : Nat, k < is.length →
        occurrences .opened (r.2.getD k []) =
          if (is.getD k (idle 0)).reed2_a = HIGH ∧
              (k = 0 ∨ (is.getD (k - 1) (idle 0)).reed2_a = LOW)
          then 1 else 0) := by
  refine ⟨loop_opened, ?_, ?_⟩
  · intro pre i post r h
    rw [runCycles_opened_at pre i post r h, ← openedFlag_false_iff]
    constructor
    · split <;> omega
    · constructor
      · intro h1
        by_contra hn
        rw [if_neg hn] at h1
        exact absurd h1 (by decide)
      · intro hc
        rw [if_pos hc]
  · intro is r hst hrun k hk
    rw [runCycles_opened is initial r initial_sound hst hrun k hk]
    cases k with
    | zero => simp [initial]
    | succ k => simp

/-- C3 as amended, on two runs.  On the door reads (505, 532) = [(open,
closed), (open, closed)] the second pass sends the message, since the only
earlier pass that read open at line 505 read closed at line 532.  On the
agreeing readings [open, open, open, closed, open, open] the message is sent
in the first and in the fifth pass only. -/
theorem opened_once_per_open_run_witness :
    (∃ r, runCycles initial [doorReads 10 HIGH LOW, doorReads 20 HIGH LOW] = some r ∧
      occurrences .opened (r.2.getD 1 []) = 1) ∧
    (∃ r, runCycles initial
          [door 10 HIGH, door 20 HIGH, door 30 HIGH, door 40 LOW, door 50 HIGH, door 60 HIGH]
        = some r ∧
      r.2.map (occurrences .opened) = [1, 0, 0, 0, 1, 0] ∧
      occurrences .opened (r.2.getD 4 []) = 1) :=
  ⟨⟨_, rfl,
      ((opened_once_per_open_run.2.1 [doorReads 10 HIGH LOW] (doorReads 20 HIGH LOW) [] _
        rfl).2).2
        ⟨rfl, fun before j after h _ => by
          cases before with
          | nil =>
            simp only [List.nil_append, List.cons.injEq] at h
            exact ⟨j, List.mem_cons_self _ _, by rw [← h.1]; rfl⟩
          | cons x xs =>
            simp at h⟩⟩,
    ⟨_, rfl, by decide,
      (opened_once_per_open_run.2.2
        [door 10 HIGH, door 20 HIGH, door 30 HIGH, door 40 LOW, door 50 HIGH, door 60 HIGH]
        _ (by decide) rfl 4 (by decide)).trans (by decide)⟩⟩

/-! ## The full box -/

theorem countStep_full (i : CycleInput) (c : Core) :
    countStep .full i c =
      if (!i.reed1_b && (c.armed || i.reed1_a)) = true ∧ c.mails = 4 then 1 else 0 := by
  obtain ⟨m, f, l, ar, wo, es, os, rs, th⟩ := c
  have hm : m + 1 = 5 ↔ m = 4 := by omega
  cases ha : i.reed1_a <;> cases hb : i.reed1_b <;> cases hc : i.reed2_a <;>
    cases hd : i.reed2_b <;> cases ar <;> cases wo <;> cases os <;>
    simp [countStep, countInsert, countOpen, countClose, coreOpen, coreInsert, coreArm,
      ha, hb, hc, hd, hm]

theorem loop_full (i : CycleInput) (s s' : State) (evs : List Event)
    (h : loop i s = some (s', evs)) :
    occurrences .full evs = if insertEdge i s = true ∧ s.mails = 4 then 1 else 0 := by
  rw [loop_occurrences .full (by decide) (by decide) i s s' evs h, countStep_full]
  rfl

theorem runCycles_full (is : List CycleInput) :
    ∀ (s : State) (r : State × List (List Event)),
      runCycles s is = some r → emptyEdges s is = 0 →
      (r.2.map (occurrences .full)).sum =
        if s.mails < 5 ∧ 5 ≤ s.mails + insertEdges s is then 1 else 0 := by
  induction is with
  | nil =>
    intro s r h _
    simp only [runCycles, Option.some.injEq] at h
    subst h
    have : ¬ (s.mails < 5 ∧ 5 ≤ s.mails + ((0 : Nat) : Int)) := by omega
    simp only [insertEdges, List.map_nil, List.sum_nil, this, if_false]
  | cons i rest ih =>
    intro s r h hne
    obtain ⟨p, q, hp, hq, rfl⟩ := runCycles_cons s i rest r h
    simp only [emptyEdges, hp] at hne
    have he : emptyEdge i s = false := by
      cases hE : emptyEdge i s
      · rfl
      · rw [hE] at hne
        simp at hne
    have hrest : emptyEdges p.1 rest = 0 := by omega
    have hm := loop_mails i s p.1 p.2 hp
    rw [he] at hm
    simp only [Bool.false_eq_true, if_false] at hm
    have hf := loop_full i s p.1 p.2 hp
    have hq2 := ih p.1 q hq hrest
    simp only [List.map_cons, List.sum_cons, insertEdges, hp, hf, hq2]
    rw [hm]
    push_cast
    cases hI : insertEdge i s
    · simp only [Bool.false_eq_true, false_and, if_false]
      split_ifs <;> omega
    · simp only [true_and, if_true]
      split_ifs <;> omega

/-- C4.  In every completed pass the "box full" message (line 452) is sent
once if the pass takes the insertion branch with the counter at 4 (raising it
to 5), and not at all otherwise.  Hence in a run without an empty event it is
sent at most once, and a run that starts with the counter at 0 and contains
five insertions and no empty event ends with `mails = 5` and exactly one "box
full" message. -/
theorem full_once_at_five :
    (∀ (i : CycleInput) (s s' : State) (evs : List Event),
      loop i s = some (s', evs) →
      occurrences .full evs = if insertEdge i s = true ∧ s.mails = 4 then 1 else 0) ∧
    (∀ (s : State) (is : List CycleInput) (r : State × List (List Event)),
      runCycles s is = some r → emptyEdges s is = 0 →
      (r.2.map (occurrences .full)).sum ≤ 1) ∧
    (∀ (s : State) (is : List CycleInput) (r : State × List (List Event)),
      s.mails = 0 → runCycles s is = some r → emptyEdges s is = 0 →
      insertEdges s is = 5 →
      r.1.mails = 5 ∧ (r.2.map (occurrences .full)).sum = 1) := by
  refine ⟨loop_full, ?_, ?_⟩
  · intro s is r h hne
    rw [runCycles_full is s r h hne]
    split <;> omega
  · intro s is r h0 h hne h5
    constructor
    · rw [runCycles_mails is s r h hne, h0, h5]
      rfl
    · rw [runCycles_full is s r h hne, h0, h5]
      rfl

/-- C4 on five insertions in a row from the initial state: the counter ends at
5 and the only "box full" message is sent in the pass of the fifth insertion. -/
theorem full_once_at_five_witness :
    ∃ r, runCycles initial fiveLetters = some r ∧
      (r.1.mails = 5 ∧ (r.2.map (occurrences .full)).sum = 1) ∧
      r.2.map (occurrences .full) = [0, 0, 0, 0, 0, 0, 0, 0, 0, 1] :=
  ⟨_, rfl, full_once_at_five.2.2 initial fiveLetters _ rfl rfl (by decide) (by decide),
    by decide⟩

/-! ## The reminder -/

theorem countStep_reminder (i : CycleInput) (c : Core) : countStep .reminder i c = 0 := by
  simp [countStep, countInsert, countOpen, countClose]

/-- No pass ever sends the reminder: the condition of line 585 is never true. -/
theorem loop_never_reminds (i : CycleInput) (s s' : State) (evs : List Event)
    (h : loop i s = some (s', evs)) : occurrences .reminder evs = 0 := by
  rw [loop_occurrences .reminder (by decide) (by decide) i s s' evs h, countStep_reminder]

/-- C5 (the code at the failing input).  One letter arrived at `millis() = 20`
and `reminderMessage_Sent` is false.  In a pass four days later the whole days
since the first arrival are 4, which reaches `days_to_reminderMessage = 4`, yet
no reminder is sent and the flag stays false.  The same happens with the
threshold at 0 days one millisecond after the arrival. -/
theorem reminder_not_sent_when_due :
    ((afterRun oneLetter).firstMailTime_millis = 20 ∧
      (afterRun oneLetter).reminderMessage_Sent = false ∧
      (afterRun oneLetter).days_to_reminderMessage = 4) ∧
    (∃ p, loop (idle 345600020) (afterRun oneLetter) = some p ∧
      p.1.days_since_firstMailTime = 4 ∧
      occurrences .reminder p.2 = 0 ∧ p.1.reminderMessage_Sent = false) ∧
    (∃ p, loop (idle 21) { afterRun oneLetter with days_to_reminderMessage := 0 } = some p ∧
      p.1.days_since_firstMailTime = 0 ∧
      occurrences .reminder p.2 = 0 ∧ p.1.reminderMessage_Sent = false) :=
  ⟨by decide, ⟨_, rfl, by decide, by decide, by decide⟩, ⟨_, rfl, by decide, by decide, by decide⟩⟩

/-! ## The lock -/

/-- C6.  Let `p` be the state and the events of a pass when it reaches line
620.  The pass calls `LockClose` from line 624 if and only if `servo_isOpen` is
true and `millis() - servo_isOpen_millis >= 30000` in 32-bit unsigned
arithmetic: then the rest of the pass is the serial line 623 followed by
`LockClose`, otherwise the pass ends there; a completed pass prints line 623
once in the first case and never in the second.  The condition reads no door
sensor, and `LockClose` is called whatever the door readings are: with a
closed reading among them the pass completes with the lock closed, with only
open readings the pass stays inside the wait loop of `LockClose`. -/
theorem forced_close_iff_timeout (i : CycleInput) (s : State) (p : State × List Event)
    (hbody : loopBody i s = some p) :
    (safetyDue i.t_safety p.1 ↔
      (p.1.servo_isOpen = true ∧ usub32 (millis i.t_safety) p.1.servo_isOpen_millis ≥ 30000)) ∧
    (safetyDue i.t_safety p.1 →
      loop i s =
        (LockClose i.door_safetyClose p.1).map
          (fun q => (q.1, p.2 ++ Event.serial 623 :: q.2))) ∧
    (¬ safetyDue i.t_safety p.1 → loop i s = some p) ∧
    (∀ (s' : State) (evs : List Event), loop i s = some (s', evs) →
      occurrences .forcedClose evs = if safetyDue i.t_safety p.1 then 1 else 0) ∧
    (safetyDue i.t_safety p.1 → LOW ∈ i.door_safetyClose →
      ∃ q, loop i s = some q ∧ q.1.servo_isOpen = false) ∧
    (safetyDue i.t_safety p.1 → (∀ r ∈ i.door_safetyClose, r = HIGH) → loop i s = none) := by
  have hloop := loop_of_body i s p hbody
  have hdue : safetyDue i.t_safety p.1 →
      loop i s =
        (LockClose i.door_safetyClose p.1).map
          (fun q => (q.1, p.2 ++ Event.serial 623 :: q.2)) := by
    intro hd
    have hd2 : p.1.servo_isOpen = true ∧
        usub32 (millis i.t_safety) p.1.servo_isOpen_millis ≥ sendCounter := hd
    rw [hloop]
    unfold safetyClose
    rw [if_pos hd2, Option.map_map]
    rfl
  refine ⟨Iff.rfl, hdue, ?_, ?_, ?_, ?_⟩
  · intro hd
    have hd2 : ¬ (p.1.servo_isOpen = true ∧
        usub32 (millis i.t_safety) p.1.servo_isOpen_millis ≥ sendCounter) := hd
    rw [hloop]
    unfold safetyClose
    rw [if_neg hd2]
    simp
  · intro s' evs h
    rw [hloop] at h
    simp only [Option.map_eq_some'] at h
    obtain ⟨q, hq, h⟩ := h
    simp only [Prod.mk.injEq] at h
    rw [← h.2, occurrences_append, loopBody_forcedClose i s p hbody,
      safetyClose_occurrences .forcedClose (by decide) i p.1 q hq]
    simp
  · intro hd hmem
    rw [hdue hd]
    obtain ⟨pre, post, hrs, hpre⟩ := split_at_first_closed _ hmem
    rw [hrs, LockClose_open_readings pre hpre, LockClose_at_closed]
    exact ⟨_, rfl, rfl⟩
  · intro hd hopen
    rw [hdue hd, LockClose_all_open _ hopen]
    rfl

/-- C6 on a lock opened at `millis() = 5000`: in a pass at 36000 in which the
door reads open the lock has been open for 31000 ms, `LockClose` is called
from line 624 and the pass ends with the lock closed. -/
theorem forced_close_iff_timeout_witness :
    ∃ p, loopBody (doorStaysOpen 36000) (afterRun lockOpened) = some p ∧
      p.1.servo_isOpen = true ∧ p.1.servo_isOpen_millis = 5000 ∧
      ∃ q, loop (doorStaysOpen 36000) (afterRun lockOpened) = some q ∧
        occurrences .forcedClose q.2 = 1 ∧ q.1.servo_isOpen = false :=
  ⟨_, rfl, by decide, by decide, _, rfl,
    ((forced_close_iff_timeout (doorStaysOpen 36000) (afterRun lockOpened) _ rfl).2.2.2.1
      _ _ rfl).trans (by decide),
    by decide⟩

/-- C7.  `LockClose` returns on a list of door readings exactly when the list
holds a closed reading (`LOW`); a door sensor followed for ever lets it return
exactly when it reads closed at some time.  It returns at the first closed
reading: until then it has only waited (one `delay(3000)` per open reading),
and only then it writes the closed position to the servo and clears
`servo_isOpen`, leaving every other variable as it was.  While all readings
are open it has not returned, written or changed anything. -/
theorem LockClose_waits_for_closed_door (s : State) :
    (∀ rs : List Bool, (LockClose rs s).isSome = true ↔ LOW ∈ rs) ∧
    (∀ door : Nat → Bool,
      (∃ n, (LockClose (doorReadings door n) s).isSome = true) ↔ ∃ k, door k = LOW) ∧
    (∀ pre post : List Bool, (∀ r ∈ pre, r = HIGH) →
      LockClose (pre ++ LOW :: post) s =
        some ({ s with servo_isOpen := false },
              List.replicate pre.length (Event.delay 3000)
                ++ ([.servoWrite closed, .serial 225] ++ ConfirmTone))) ∧
    (∀ rs : List Bool, (∀ r ∈ rs, r = HIGH) → LockClose rs s = none) := by
  refine ⟨fun rs => LockClose_isSome_iff rs s, ?_, ?_, fun rs h => LockClose_all_open rs h s⟩
  · intro door
    constructor
    · rintro ⟨n, hn⟩
      have hm := (LockClose_isSome_iff _ s).1 hn
      simp only [doorReadings, List.mem_map, List.mem_range] at hm
      obtain ⟨k, -, hk⟩ := hm
      exact ⟨k, hk⟩
    · rintro ⟨k, hk⟩
      refine ⟨k + 1, (LockClose_isSome_iff _ s).2 ?_⟩
      simp only [doorReadings, List.mem_map, List.mem_range]
      exact ⟨k, Nat.lt_succ_self k, hk⟩
  · intro pre post hpre
    rw [LockClose_open_readings pre hpre, LockClose_at_closed]
    rfl

/-- C7 on the readings [open, open, closed, open] with the lock open: the
routine waits twice, then closes the lock. -/
theorem LockClose_waits_for_closed_door_witness :
    (afterRun lockOpened).servo_isOpen = true ∧
    LockClose [HIGH, HIGH, LOW, HIGH] (afterRun lockOpened) =
      some ({ afterRun lockOpened with servo_isOpen := false },
            [.delay 3000, .delay 3000, .servoWrite closed, .serial 225] ++ ConfirmTone) ∧
    LockClose [HIGH, HIGH, HIGH] (afterRun lockOpened) = none :=
  ⟨by decide,
    (LockClose_waits_for_closed_door (afterRun lockOpened)).2.2.1 [HIGH, HIGH] [HIGH]
      (by decide),
    (LockClose_waits_for_closed_door (afterRun lockOpened)).2.2.2 [HIGH, HIGH, HIGH]
      (by decide)⟩

/-! ## The counter and the first arrival -/

theorem mailsConsistent_of_core (s s' : State) (h : s'.core = s.core)
    (hs : mailsConsistent s) : mailsConsistent s' := by
  have hm : s'.mails = s.mails := congrArg Core.mails h
  have hf : s'.firstMailTime_millis = s.firstMailTime_millis := congrArg Core.first h
  unfold mailsConsistent
  rw [hm, hf]
  exact hs

theorem coreInsert_consistent (i : CycleInput) (c : Core)
    (h : 0 ≤ c.mails ∧ (c.mails = 0 → c.first = 0)) :
    0 ≤ (coreInsert i c).mails ∧ ((coreInsert i c).mails = 0 → (coreInsert i c).first = 0) := by
  unfold coreInsert
  split
  · constructor
    · show 0 ≤ c.mails + 1
      omega
    · intro hz
      have hz2 : c.mails + 1 = 0 := hz
      omega
  · exact h

theorem coreClose_consistent (i : CycleInput) (c : Core)
    (h : 0 ≤ c.mails ∧ (c.mails = 0 → c.first = 0)) :
    0 ≤ (coreClose i c).mails ∧ ((coreClose i c).mails = 0 → (coreClose i c).first = 0) := by
  unfold coreClose
  split
  · split
    · exact ⟨le_refl 0, fun _ => rfl⟩
    · exact ⟨le_refl 0, fun _ => rfl⟩
  · exact h

/-- C8.  In every state reachable from the initial state by passes of
`loop()` (which include the handling of remote commands), `mails = 0` implies
`firstMailTime_millis = 0`.  Together with `0 ≤ mails` the predicate holds
initially and is preserved by the insertion step, the door-open step, the
door-close (empty) step, the reminder step, the lock routines and the
command handler. -/
theorem mails_zero_first_unset :
    (∀ s : State, Reachable s → s.mails = 0 → s.firstMailTime_millis = 0) ∧
    mailsConsistent initial ∧
    (∀ (i : CycleInput) (s : State) (p : State × List Event), mailsConsistent s →
      mailInsert i (mailArm i s).1 = some p → mailsConsistent p.1) ∧
    (∀ (i : CycleInput) (s : State), mailsConsistent s → mailsConsistent (doorOpen i s).1) ∧
    (∀ (i : CycleInput) (s : State) (p : State × List Event), mailsConsistent s →
      doorClose i s = some p → mailsConsistent p.1) ∧
    (∀ (i : CycleInput) (s : State), mailsConsistent s →
      mailsConsistent (reminderCheck i s).1) ∧
    (∀ (t : Nat) (s : State), mailsConsistent s → mailsConsistent (LockOpen t s).1) ∧
    (∀ (rs : List Bool) (s : State) (p : State × List Event), mailsConsistent s →
      LockClose rs s = some p → mailsConsistent p.1) ∧
    (∀ (i : CycleInput) (s : State), mailsConsistent s →
      mailsConsistent (pollTelegram i s).1) := by
  refine ⟨?_, ⟨le_refl 0, fun _ => rfl⟩, ?_, ?_, ?_, ?_, ?_, ?_, ?_⟩
  · intro s hs
    exact (reachable_sound s hs).2.2.2.2
  · intro i s p hs h
    have hc := mailInsert_core i _ p h
    rw [mailArm_core] at hc
    have := coreInsert_consistent i (coreArm i s.core) hs
    rw [← hc] at this
    exact this
  · intro i s hs
    have hc := doorOpen_core i s
    have hm : (doorOpen i s).1.mails = s.mails := by
      have := congrArg Core.mails hc
      unfold coreOpen at this
      split at this <;> exact this
    have hf : (doorOpen i s).1.firstMailTime_millis = s.firstMailTime_millis := by
      have := congrArg Core.first hc
      unfold coreOpen at this
      split at this <;> exact this
    unfold mailsConsistent
    rw [hm, hf]
    exact hs
  · intro i s p hs h
    have hc := doorClose_core i s p h
    have := coreClose_consistent i s.core hs
    rw [← hc] at this
    exact this
  · intro i s hs
    have hc := reminderCheck_core i s
    have hm : (reminderCheck i s).1.mails = s.mails := by
      have := congrArg Core.mails hc
      rw [coreReminder_mails] at this
      exact this
    have hf : (reminderCheck i s).1.firstMailTime_millis = s.firstMailTime_millis := by
      have := congrArg Core.first hc
      rw [coreReminder_first] at this
      exact this
    unfold mailsConsistent
    rw [hm, hf]
    exact hs
  · intro t s hs
    exact mailsConsistent_of_core s _ (LockOpen_core t s) hs
  · intro rs s p hs h
    exact mailsConsistent_of_core s _ (LockClose_core rs s p h) hs
  · intro i s hs
    exact mailsConsistent_of_core s _ (pollTelegram_core i s) hs

/-- C8 on the state reached after three letters were inserted and the box was
opened and closed: the counter is back at 0 and no first arrival is recorded. -/
theorem mails_zero_first_unset_witness :
    (afterRun threeLettersDoorOpen).mails = 3 ∧
    (afterRun threeLettersDoorOpen).firstMailTime_millis = 20 ∧
    (afterRun threeLettersEmptied).mails = 0 ∧
    (afterRun threeLettersEmptied).firstMailTime_millis = 0 :=
  ⟨by decide, by decide, by decide,
    mails_zero_first_unset.1 (afterRun threeLettersEmptied) (reachable_afterRun _) (by decide)⟩

/-! ## Opening the lock -/

/-- C9 fails: with the lock open since `millis() = 5000`, a second `LockOpen`
at 9000 stores 9000 in `servo_isOpen_millis`, and the safety timeout, which
was due at 36000, is no longer due then. -/
theorem LockOpen_restamps :
    (afterRun lockOpened).servo_isOpen = true ∧
    (afterRun lockOpened).servo_isOpen_millis = 5000 ∧
    (LockOpen 9000 (afterRun lockOpened)).1.servo_isOpen_millis = 9000 ∧
    (LockOpen 9000 (afterRun lockOpened)).1.servo_isOpen_millis
      ≠ (afterRun lockOpened).servo_isOpen_millis ∧
    safetyDue 36000 (afterRun lockOpened) ∧
    ¬ safetyDue 36000 (LockOpen 9000 (afterRun lockOpened)).1 := by
  decide

/-- C9 as amended.  `LockOpen` called while the lock is open leaves
`servo_isOpen` true and every variable outside the lock as it was, and stores
the current reading of `millis()` in `servo_isOpen_millis`; the safety timeout
of line 621 then counts from this new reading.  The command `/open` runs
`LockOpen` whatever the state of the lock. -/
theorem LockOpen_when_open (t : Nat) (s : State) (h : s.servo_isOpen = true) :
    (LockOpen t s).1 = { s with servo_isOpen_millis := millis t } ∧
    (LockOpen t s).1.servo_isOpen = true ∧
    (LockOpen t s).1.servo_isOpen_millis = millis t ∧
    (∀ t' : Nat, safetyDue t' (LockOpen t s).1 ↔ usub32 (millis t') (millis t) ≥ 30000) ∧
    (∀ (msg : Incoming) (a : Answer), msg.text = "/open" →
      (handleMessage msg s a).1 = (LockOpen msg.millis_lock s).1) := by
  refine ⟨?_, rfl, rfl, ?_, ?_⟩
  · unfold LockOpen
    rw [← h]
  · intro t'
    unfold safetyDue LockOpen sendCounter
    simp
  · intro msg a ht
    have h1 : ¬ ("/open" = "/help") := by decide
    have h2 : ¬ ("/open" = "/start") := by decide
    have h3 : ¬ ("/open" = "/status") := by decide
    unfold handleMessage
    rw [ht, if_neg h1, if_neg h2, if_neg h3, if_pos rfl]

/-- C9 as amended, on the lock opened at 5000 and opened again at 9000. -/
theorem LockOpen_when_open_witness :
    (afterRun lockOpened).servo_isOpen = true ∧
    (LockOpen 9000 (afterRun lockOpened)).1.servo_isOpen_millis = 9000 :=
  ⟨by decide, (LockOpen_when_open 9000 (afterRun lockOpened) (by decide)).2.2.1⟩

/-! ## Days since the first arrival -/

/-- The value stored at line 583. -/
theorem reminderCheck_days (i : CycleInput) (s : State) :
    (reminderCheck i s).1.days_since_firstMailTime =
      usub32 (millis i.now) s.firstMailTime_millis / 86400000 := by
  rw [reminderCheck_eq]
  unfold reminderCondition
  split <;> rfl

/-- C10 (the code at the failing input).  From the initial state, where
`firstMailTime_millis = 0`, a pass at `millis() = 86400000` stores 1 in
`days_since_firstMailTime`, and a pass at 345600000 stores 4, the reminder
threshold. -/
theorem days_counted_without_mail :
    initial.firstMailTime_millis = 0 ∧
    (∃ p, loop (idle 86400000) initial = some p ∧ p.1.firstMailTime_millis = 0 ∧
      p.1.days_since_firstMailTime = 1) ∧
    (∃ p, loop (idle 345600000) initial = some p ∧ p.1.firstMailTime_millis = 0 ∧
      p.1.days_since_firstMailTime = 4) :=
  ⟨rfl, ⟨_, rfl, by decide, by decide⟩, ⟨_, rfl, by decide, by decide⟩⟩

/-! ## The arrival times -/

theorem occurrences_pos_of_mem (t : Topic) (e : Event) (evs : List Event)
    (he : e ∈ evs) (ht : e.topic = t) : 0 < occurrences t evs := by
  unfold occurrences
  rw [List.countP_pos_iff]
  exact ⟨e, he, by simp [ht]⟩

/-- In a trace with one event of topic `t`, two events of that topic are the
same event. -/
theorem eq_of_occurrences_one (t : Topic) (evs : List Event) (a b : Event)
    (h1 : occurrences t evs = 1) (ha : a ∈ evs) (hb : b ∈ evs)
    (hta : a.topic = t) (htb : b.topic = t) : a = b := by
  induction evs with
  | nil => simp at ha
  | cons e l ih =>
    rw [occurrences_cons] at h1
    rcases List.mem_cons.1 ha with hae | ha2
    · rcases List.mem_cons.1 hb with hbe | hb2
      · rw [hae, hbe]
      · have := occurrences_pos_of_mem t b l hb2 htb
        rw [← hae, if_pos hta] at h1
        omega
    · rcases List.mem_cons.1 hb with hbe | hb2
      · have := occurrences_pos_of_mem t a l ha2 hta
        rw [← hbe, if_pos htb] at h1
        omega
      · have hpos := occurrences_pos_of_mem t a l ha2 hta
        have h0 : occurrences t l = 1 := by
          split at h1 <;> omega
        exact ih h0 ha2 hb2

/-- The insertion branch of lines 425-493, taken from state `s`. -/
theorem mailInsert_taken (i : CycleInput) (s : State) (p : State × List Event)
    (h : mailInsert i s = some p) (hb : i.reed1_b = LOW) (hw : s.reed1_wasOpen = true) :
    p.1.mails = s.mails + 1 ∧
    p.1.firstMailTime_millis =
      (if s.mails + 1 = 1 then millis i.t_mail else s.firstMailTime_millis) ∧
    p.1.lastMailTime_millis =
      (if s.mails + 1 = 1 ∨ s.mails + 1 = 5 then s.lastMailTime_millis else millis i.t_mail) ∧
    occurrences .mail p.2 = 1 ∧
    Event.send (.newMails (s.mails + 1)) ∈ p.2 := by
  have hc := mailInsert_core i s p h
  have hcond : i.reed1_b = LOW ∧ s.core.armed = true := ⟨hb, hw⟩
  unfold coreInsert at hc
  rw [if_pos hcond] at hc
  refine ⟨congrArg Core.mails hc, congrArg Core.first hc, congrArg Core.last hc, ?_, ?_⟩
  · rw [mailInsert_occurrences .mail (by decide) i s p h]
    unfold countInsert
    rw [if_pos hcond]
    simp
  · rcases mailInsert_cases i s p h with ⟨_, _, _, _, he⟩ | ⟨hn, _⟩
    · have hm : (mailStamp i { s with mails := s.mails + 1, reed1_wasOpen := false }).1.mails
          = s.mails + 1 :=
        congrArg Core.mails
          (mailStamp_core i { s with mails := s.mails + 1, reed1_wasOpen := false })
      rw [he, hm]
      simp
    · exact absurd ⟨hb, hw⟩ hn

theorem countStep_mail (i : CycleInput) (c : Core) :
    countStep .mail i c =
      if (!i.reed1_b && (c.armed || i.reed1_a)) = true then 1 else 0 := by
  obtain ⟨m, f, l, ar, wo, es, os, rs, th⟩ := c
  cases ha : i.reed1_a <;> cases hb : i.reed1_b <;> cases hc : i.reed2_a <;>
    cases hd : i.reed2_b <;> cases ar <;> cases wo <;> cases os <;>
    simp [countStep, countInsert, countOpen, countClose, coreOpen, coreInsert, coreArm,
      ha, hb, hc, hd]

theorem loop_firstMailTime (i : CycleInput) (s s' : State) (evs : List Event)
    (h : loop i s = some (s', evs)) :
    s'.firstMailTime_millis =
      if emptyEdge i s = true then 0
      else if insertEdge i s = true then
        (if s.mails + 1 = 1 then millis i.t_mail else s.firstMailTime_millis)
      else s.firstMailTime_millis := by
  have hc := congrArg Core.first (loop_core i s s' evs h)
  rw [coreStep_first] at hc
  exact hc

theorem loop_lastMailTime (i : CycleInput) (s s' : State) (evs : List Event)
    (h : loop i s = some (s', evs)) :
    s'.lastMailTime_millis =
      if emptyEdge i s = true then 0
      else if insertEdge i s = true then
        (if s.mails + 1 = 1 ∨ s.mails + 1 = 5 then s.lastMailTime_millis else millis i.t_mail)
      else s.lastMailTime_millis := by
  have hc := congrArg Core.last (loop_core i s s' evs h)
  rw [coreStep_last] at hc
  exact hc

/-- The message of line 473 of a pass that takes the insertion branch. -/
theorem loop_newMails_mem (i : CycleInput) (s s' : State) (evs : List Event)
    (h : loop i s = some (s', evs)) (hi : insertEdge i s = true) :
    Event.send (.newMails (s.mails + 1)) ∈ evs := by
  obtain ⟨p4, p6, p9, h4, h6, h9, -, rfl⟩ := loop_phases i s s' evs h
  have hA := mailArm_core i (startupOnce i (pollTelegram i s).1).1
  rw [startupOnce_core, pollTelegram_core] at hA
  have hm : (mailArm i (startupOnce i (pollTelegram i s).1).1).1.mails = s.mails :=
    congrArg Core.mails hA
  have hw : (mailArm i (startupOnce i (pollTelegram i s).1).1).1.reed1_wasOpen
      = (s.reed1_wasOpen || i.reed1_a) := congrArg Core.armed hA
  simp only [insertEdge, Bool.and_eq_true, Bool.not_eq_true'] at hi
  have hmem := (mailInsert_taken i _ p4 h4 hi.1 (hw.trans hi.2)).2.2.2.2
  rw [hm] at hmem
  simp only [List.mem_append, hmem, true_or, or_true]

/-- C11.  When the insertion branch of lines 425-493 is taken with the counter
raised to `k = mails + 1` and `t` the reading of `millis()` at line 434 or 461:
for `k = 1` `firstMailTime_millis` becomes `t` and `lastMailTime_millis` stays;
for `k = 5` both stay; for every other `k` `lastMailTime_millis` becomes `t`
and `firstMailTime_millis` stays.  In all three cases the message of line 473
is sent once and carries `k`.  The same holds of a completed pass of `loop()`
that takes the insertion branch and is not an empty event. -/
theorem insertion_stamps_arrival :
    (∀ (i : CycleInput) (s : State) (p : State × List Event),
      mailInsert i s = some p → i.reed1_b = LOW → s.reed1_wasOpen = true →
      p.1.mails = s.mails + 1 ∧
      (p.1.mails = 1 →
        p.1.firstMailTime_millis = millis i.t_mail ∧
        p.1.lastMailTime_millis = s.lastMailTime_millis) ∧
      (p.1.mails = 5 →
        p.1.firstMailTime_millis = s.firstMailTime_millis ∧
        p.1.lastMailTime_millis = s.lastMailTime_millis) ∧
      (p.1.mails ≠ 1 → p.1.mails ≠ 5 →
        p.1.lastMailTime_millis = millis i.t_mail ∧
        p.1.firstMailTime_millis = s.firstMailTime_millis) ∧
      Event.send (.newMails p.1.mails) ∈ p.2 ∧
      occurrences .mail p.2 = 1 ∧
      (∀ k : Int, Event.send (.newMails k) ∈ p.2 → k = p.1.mails)) ∧
    (∀ (i : CycleInput) (s s' : State) (evs : List Event),
      loop i s = some (s', evs) → insertEdge i s = true → emptyEdge i s = false →
      s'.mails = s.mails + 1 ∧
      (s'.mails = 1 →
        s'.firstMailTime_millis = millis i.t_mail ∧
        s'.lastMailTime_millis = s.lastMailTime_millis) ∧
      (s'.mails = 5 →
        s'.firstMailTime_millis = s.firstMailTime_millis ∧
        s'.lastMailTime_millis = s.lastMailTime_millis) ∧
      (s'.mails ≠ 1 → s'.mails ≠ 5 →
        s'.lastMailTime_millis = millis i.t_mail ∧
        s'.firstMailTime_millis = s.firstMailTime_millis) ∧
      Event.send (.newMails s'.mails) ∈ evs ∧
      occurrences .mail evs = 1 ∧
      (∀ k : Int, Event.send (.newMails k) ∈ evs → k = s'.mails)) := by
  constructor
  · intro i s p h hb hw
    obtain ⟨hm, hf, hl, ho, hmem⟩ := mailInsert_taken i s p h hb hw
    rw [← hm] at hf hl hmem
    refine ⟨hm, ?_, ?_, ?_, hmem, ho, ?_⟩
    · intro h1
      rw [hf, hl]
      simp [h1]
    · intro h5
      have h1 : ¬ p.1.mails = 1 := by omega
      rw [hf, hl]
      simp [h1, h5]
    · intro h1 h5
      rw [hf, hl]
      simp [h1, h5]
    · intro k hk
      have := eq_of_occurrences_one .mail p.2 _ _ ho hk hmem rfl rfl
      simpa using this
  · intro i s s' evs h hi he
    have hm := loop_mails i s s' evs h
    have hf := loop_firstMailTime i s s' evs h
    have hl := loop_lastMailTime i s s' evs h
    have hmem := loop_newMails_mem i s s' evs h hi
    have ho : occurrences .mail evs = 1 := by
      rw [loop_occurrences .mail (by decide) (by decide) i s s' evs h, countStep_mail]
      exact if_pos hi
    rw [he, hi] at hm hf hl
    simp only [Bool.false_eq_true, if_false, if_true] at hm hf hl
    rw [← hm] at hf hl hmem
    refine ⟨hm, ?_, ?_, ?_, hmem, ho, ?_⟩
    · intro h1
      rw [hf, hl]
      simp [h1]
    · intro h5
      have h1 : ¬ s'.mails = 1 := by omega
      rw [hf, hl]
      simp [h1, h5]
    · intro h1 h5
      rw [hf, hl]
      simp [h1, h5]
    · intro k hk
      have := eq_of_occurrences_one .mail evs _ _ ho hk hmem rfl rfl
      simpa using this

/-- C11 on the readings [inactive, active, inactive] of reed switch 1 at
`millis()` = 0, 10, 20 from the initial state: the third pass is the first
insertion, it stores 20 in `firstMailTime_millis`, leaves `lastMailTime_millis`
at 0 and sends the count 1. -/
theorem insertion_stamps_arrival_witness :
    ∃ p, loop (slot 20 LOW) (afterRun slotOpened) = some p ∧
      p.1.mails = 1 ∧ p.1.firstMailTime_millis = 20 ∧ p.1.lastMailTime_millis = 0 ∧
      Event.send (.newMails 1) ∈ p.2 :=
  ⟨_, rfl, by decide,
    ((insertion_stamps_arrival.2 (slot 20 LOW) (afterRun slotOpened) _ _ rfl
      (by decide) (by decide)).2.1 (by decide)).1.trans (by decide),
    by decide, by decide⟩

end SmartMailbox
